import Mathlib

/-!
# pspublisher: the `uploadApk` workflow and its command-line flags

A shallow embedding of `pspublisher.go` and `command/command.go`.

* Go strings are Lean `String`s (valid UTF-8 text).  Go's `len(s)` is the number
  of bytes of `s`, which is `String.utf8ByteSize`; the number of characters is
  `String.length`.
* Go `error` values are represented by their text.
* The file system and the remote publishing service are oracles: every
  operation is a function from its arguments to its result.  Every operation is
  used at most once in a run, so this covers any behaviour of the collaborators.
* A run produces the list of remote calls it issued, the lines it wrote to
  standard error, and the way the process ended.  Progress output on standard
  output (`log.I`, `log.D`, `log.V`) is not part of the model.
-/

namespace PsPublisher

/-! ## command/command.go -/

/-- Go `error`, by its text. -/
abbrev Error := String

/-- The type `arrayFlags []string`. -/
abbrev arrayFlags := List String

/-- The method `(i *arrayFlags) String()`: the concatenation of the values
(named `asString` here, since `arrayFlags.String` would hide the type `String`). -/
def arrayFlags.asString (i : arrayFlags) : String :=
  i.foldl (fun groups group => groups ++ group) ""

/-- The loop of `Set`: whether some element of the list equals `value`. -/
def arrayFlags.found : List String → String → Bool
  | [], _ => false
  | b :: rest, value => if b = value then true else arrayFlags.found rest value

/-- The method `(i *arrayFlags) Set(value)`: the new list and the returned error (`none` is `nil`). -/
def arrayFlags.Set (i : arrayFlags) (value : String) : arrayFlags × Option Error :=
  if arrayFlags.found i value then (i, none) else (i ++ [value], none)

/-- The struct `Command`.  Each map is an association list read by first match;
a stored value is the value the flag's pointer currently points to. -/
structure Command where
  Name : String
  strings : List (String × String)
  stringArrays : List (String × arrayFlags)
  bools : List (String × Bool)
deriving DecidableEq, Repr

/-- The function `New`. -/
def New (name : String) : Command :=
  { Name := name, strings := [], stringArrays := [], bools := [] }

/-- The method `AddString`: registers a string flag with its default value. -/
def Command.AddString (c : Command) (name defaultValue _usage : String) : Command :=
  { c with strings := (name, defaultValue) :: c.strings }

/-- The method `GetString`. -/
def Command.GetString (c : Command) (name : String) : String :=
  match c.strings.lookup name with
  | some value => value
  | none => ""

/-- The method `AddStringArray`. -/
def Command.AddStringArray (c : Command) (name : String) (defaultValue : arrayFlags)
    (_usage : String) : Command :=
  { c with stringArrays := (name, defaultValue) :: c.stringArrays }

/-- The method `GetStringArray`. -/
def Command.GetStringArray (c : Command) (name : String) : List String :=
  match c.stringArrays.lookup name with
  | some value => value
  | none => []

/-- The method `AddBool`. -/
def Command.AddBool (c : Command) (name : String) (defaultValue : Bool) (_usage : String) :
    Command :=
  { c with bools := (name, defaultValue) :: c.bools }

/-- The method `GetBool`. -/
def Command.GetBool (c : Command) (name : String) : Bool :=
  match c.bools.lookup name with
  | some value => value
  | none => false

/-! ## pspublisher.go: constants -/

def versionString : String := "1.0.0"

def uploadApkCmdString : String := "uploadApk"

def Id : String := "id"
def Key : String := "key"
def Apk : String := "apk"
def Track : String := "track"
def Mapping : String := "mapping"
def ReleaseNotes : String := "releasenotes"
def ReleaseNotesFile : String := "releasenotesfile"
def Status : String := "status"
def Verbose : String := "verbose"
def Debug : String := "debug"

def PublishStatusCompleted : String := "completed"
def PublishStatusDraft : String := "draft"
def PublishStatusHalted : String := "halted"
def PublishStatusInProgress : String := "inProgress"

/-- The command registered in `main` (lines 47-57), every flag at its default. -/
def uploadCommand : Command :=
  ((((((((((New uploadApkCmdString).AddString Id "" "Required. Application package name id").AddString
    Key "" "Required. Service account key file").AddString
    Apk "" "Required. Path to apk file to upload").AddString
    Track "" "Required. Name of track where to publish the apk").AddString
    Mapping "" "Optional. Path to ProGuard mapping file to upload").AddString
    ReleaseNotes "Uploaded with pspublisher" "Optional. Release notes").AddString
    ReleaseNotesFile "" "Optional. Path to file containing release notes").AddString
    Status PublishStatusCompleted "Optional. Publish status").AddBool
    Verbose false "Optional. Enable verbose logging").AddBool
    Debug false "Optional. Enable debug logging"

/-! ## The publishing service's data (the fields the program uses)

The response of a call that succeeds and the records inside it are values: the
pointers the client library returns on success are taken to be non-nil. -/

structure LocalizedText where
  Language : String
  Text : String
deriving DecidableEq, Repr

structure TrackRelease where
  ReleaseNotes : List LocalizedText
  Status : String
  VersionCodes : List Int
deriving DecidableEq, Repr

structure TrackData where
  Track : String
  Releases : List TrackRelease
deriving DecidableEq, Repr

structure Listing where
  Language : String
deriving DecidableEq, Repr

structure ListingsListResponse where
  Listings : List Listing
deriving DecidableEq, Repr

structure ApkBinary where
  Sha1 : String
deriving DecidableEq, Repr

structure ApkData where
  Binary : ApkBinary
  VersionCode : Int
deriving DecidableEq, Repr

/-- A remote call with its arguments; an open file is named by its path. -/
inductive Call where
  | NewService (credentialsFile : String)
  | EditsInsert (packageId : String)
  | EditsDelete (packageId editId : String)
  | ListingsList (packageId editId : String)
  | ApksUpload (packageId editId media contentType : String)
  | DeobfuscationfilesUpload (packageId editId : String) (versionCode : Int)
      (fileType media contentType : String)
  | TracksUpdate (packageId editId trackName : String) (track : TrackData)
  | EditsValidate (packageId editId : String)
  | EditsCommit (packageId editId : String)
deriving DecidableEq, Repr

/-- The remote publishing service: the response to every call. -/
structure Service where
  NewService : String → Except Error Unit
  EditsInsert : String → Except Error String
  EditsDelete : String → String → Option Error
  ListingsList : String → String → Except Error ListingsListResponse
  ApksUpload : String → String → String → String → Except Error ApkData
  DeobfuscationfilesUpload : String → String → Int → String → String → String → Except Error Unit
  TracksUpdate : String → String → String → TrackData → Except Error TrackData
  EditsValidate : String → String → Except Error Unit
  EditsCommit : String → String → Except Error Unit

/-- The local file system: `os.Open` (its error, `none` for `nil`; the open file
is named by its path) and `ioutil.ReadFile`. -/
structure FileSystem where
  Open : String → Option Error
  ReadFile : String → Except Error String

/-! ## Runs -/

/-- A line on standard error: a format with its arguments, or the flag defaults
printed by `PrintDefaults`. -/
inductive ErrLine where
  | line (format : String) (args : List String)
  | printDefaults (command : String)
deriving DecidableEq, Repr

/-- How the process ends: `os.Exit code`, a return from `main`, or a runtime panic. -/
inductive Ending where
  | exit (code : Nat)
  | returned
  | panicked (message : String)
deriving DecidableEq, Repr

/-- The exit status of the process: a Go program that panics exits with 2. -/
def Ending.exitCode : Ending → Nat
  | .exit code => code
  | .returned => 0
  | .panicked _ => 2

/-- What a run has done so far. -/
structure Log where
  calls : List Call
  stderr : List ErrLine
deriving DecidableEq, Repr

/-- The state of a run after a statement: still running with a value, or ended. -/
inductive Step (α : Type) where
  | cont (a : α) (log : Log)
  | halt (e : Ending) (log : Log)

/-- A statement of the program. -/
def Run (α : Type) : Type := Log → Step α

def Run.pure {α : Type} (a : α) : Run α := fun log => Step.cont a log

def Run.bind {α β : Type} (m : Run α) (f : α → Run β) : Run β := fun log =>
  match m log with
  | Step.cont a log1 => f a log1
  | Step.halt e log1 => Step.halt e log1

instance : Monad Run where
  pure := Run.pure
  bind := Run.bind

/-- The call `os.Exit(code)`. -/
def osExit {α : Type} (code : Nat) : Run α := fun log => Step.halt (Ending.exit code) log

/-- A runtime panic. -/
def goPanic {α : Type} (message : String) : Run α := fun log =>
  Step.halt (Ending.panicked message) log

/-- The function `logger.Errorln`, also reached through `log.E`. -/
def Errorln (format : String) (args : List String) : Run Unit := fun log =>
  Step.cont () { log with stderr := log.stderr ++ [ErrLine.line format args] }

/-- The call `command.Command.PrintDefaults()`, which writes to standard error. -/
def PrintDefaults (command : String) : Run Unit := fun log =>
  Step.cont () { log with stderr := log.stderr ++ [ErrLine.printDefaults command] }

/-- Issues a remote call: records it and returns the service's response. -/
def doCall {α : Type} (c : Call) (response : α) : Run α := fun log =>
  Step.cont response { log with calls := log.calls ++ [c] }

/-- The result of a whole run. -/
structure Outcome where
  calls : List Call
  stderr : List ErrLine
  ending : Ending
deriving DecidableEq, Repr

/-- Runs a program from the empty log. -/
def Run.outcome (m : Run Unit) : Outcome :=
  match m { calls := [], stderr := [] } with
  | Step.cont _ log => { calls := log.calls, stderr := log.stderr, ending := Ending.returned }
  | Step.halt e log => { calls := log.calls, stderr := log.stderr, ending := e }

/-! ## pspublisher.go: the program -/

/-- What the process receives: `os.Args[0]`, `os.Args[2:]`, the error returned by
the flag library's `Parse` (`none` for `nil`), the file system and the remote
service.  The flag values after `Parse` are the `Command` the program reads. -/
structure Env where
  prog : String
  args : List String
  parseErr : Option Error
  fs : FileSystem
  service : Service

/-- The function `showCommandHelp`. -/
def showCommandHelp (env : Env) (command : Command) : Run Unit := do
  Errorln "pspublisher %s" [versionString]
  Errorln "Usage: %s %s [<args>]" [env.prog, command.Name]
  Errorln "Supported arguments" []
  PrintDefaults command.Name

/-- The struct `Edit`. -/
structure Edit where
  Service : Service
  PackageId : String
  Id : String

/-- The method `(e *Edit) delete()`. -/
def Edit.delete (e : Edit) : Run Unit := do
  let err ← doCall (Call.EditsDelete e.PackageId e.Id) (e.Service.EditsDelete e.PackageId e.Id)
  (match err with
    | some err => do
      Errorln "Failed to delete edit:\n%s" [err]
      osExit 1
    | none => pure ())

/-- The method `(e *Edit) getListings()`. -/
def Edit.getListings (e : Edit) : Run (Except Error ListingsListResponse) :=
  doCall (Call.ListingsList e.PackageId e.Id) (e.Service.ListingsList e.PackageId e.Id)

/-- The method `(e *Edit) uploadApk(apkFile)`. -/
def Edit.uploadApk (e : Edit) (apkFile : String) : Run (Except Error ApkData) :=
  doCall (Call.ApksUpload e.PackageId e.Id apkFile "application/vnd.android.package-archive")
    (e.Service.ApksUpload e.PackageId e.Id apkFile "application/vnd.android.package-archive")

/-- The method `(e *Edit) uploadMappingFile(versionCode, mappingFile)`. -/
def Edit.uploadMappingFile (e : Edit) (versionCode : Int) (mappingFile : String) :
    Run (Except Error Unit) :=
  doCall
    (Call.DeobfuscationfilesUpload e.PackageId e.Id versionCode "proguard" mappingFile
      "application/octet-stream")
    (e.Service.DeobfuscationfilesUpload e.PackageId e.Id versionCode "proguard" mappingFile
      "application/octet-stream")

/-- The method `(e *Edit) updateTrack(trackName, track)`. -/
def Edit.updateTrack (e : Edit) (trackName : String) (track : TrackData) :
    Run (Except Error TrackData) :=
  doCall (Call.TracksUpdate e.PackageId e.Id trackName track)
    (e.Service.TracksUpdate e.PackageId e.Id trackName track)

/-- The method `(e *Edit) validate()`. -/
def Edit.validate (e : Edit) : Run (Except Error Unit) :=
  doCall (Call.EditsValidate e.PackageId e.Id) (e.Service.EditsValidate e.PackageId e.Id)

/-- The method `(e *Edit) commit()`. -/
def Edit.commit (e : Edit) : Run (Except Error Unit) :=
  doCall (Call.EditsCommit e.PackageId e.Id) (e.Service.EditsCommit e.PackageId e.Id)

/-- The function `newEdit(service, packageId)`. -/
def newEdit (service : Service) (packageId : String) : Run (Except Error Edit) := do
  let appEdit ← doCall (Call.EditsInsert packageId) (service.EditsInsert packageId)
  (match appEdit with
    | Except.error err => pure (Except.error err)
    | Except.ok id => pure (Except.ok { Service := service, PackageId := packageId, Id := id }))

/-- The local variables of `uploadApkCommand` that are set by the validation and
read by the rest of the function: the open apk file and the open mapping file
(`none` is `nil`), each named by its path, the release notes and the publish
status. -/
structure Locals where
  apkFile : String
  mappingFile : Option String
  releaseNotes : String
  publishStatus : String
deriving DecidableEq, Repr

/-- The function `uploadApkCommand`, lines 88-165: parsing and validation. -/
def uploadApkCommand.validate (env : Env) (upload : Command) : Run Locals := do
  (match env.parseErr with
    | some err => do
      Errorln "Unrecognized parameters:\n%s" [err]
      showCommandHelp env upload
      osExit 1
    | none => pure ())
  (if env.args.length = 0 then do
      showCommandHelp env upload
      osExit 1
    else pure ())
  (if upload.GetString Id = "" then do
      Errorln "Package id is required" []
      osExit 1
    else pure ())
  (if upload.GetString Key = "" then do
      Errorln "Key file is required" []
      osExit 1
    else pure ())
  (if upload.GetString Track = "" then do
      Errorln "Publish track is required" []
      osExit 1
    else pure ())
  -- Check that apk file is available
  let apkFile := upload.GetString Apk
  (match env.fs.Open apkFile with
    | some err => do
      Errorln "Cannot open apk file:\n%s" [err]
      osExit 1
    | none => pure ())
  -- Check that mapping file is available if given
  let mappingFile : Option String ←
    (if upload.GetString Mapping ≠ "" then
      match env.fs.Open (upload.GetString Mapping) with
      | some err => do
        Errorln "Cannot open mapping file:\n%s" [err]
        osExit 1
      | none => pure (some (upload.GetString Mapping))
    else pure none)
  -- Check that upload key file is available
  (match env.fs.Open (upload.GetString Key) with
    | some err => do
      Errorln "Cannot open key file file:\n%s" [err]
      osExit 1
    | none => pure ())
  -- Setup release notes
  let releaseNotes : String ←
    (if upload.GetString ReleaseNotesFile ≠ "" then
      match env.fs.ReadFile (upload.GetString ReleaseNotesFile) with
      | Except.error err => do
        Errorln "Cannot read release notes file contents:\n%s" [err]
        osExit 1
      | Except.ok notes => pure notes
    else pure (upload.GetString ReleaseNotes))
  -- Check that release notes are 500 characters or less
  (if releaseNotes.utf8ByteSize > 500 then do
      Errorln "Release notes cannot exceed 500 characters\n" []
      osExit 1
    else pure ())
  -- Check publish status
  let publishStatus := upload.GetString Status
  (if publishStatus = "" ∨ (publishStatus ≠ PublishStatusCompleted
      ∧ publishStatus ≠ PublishStatusDraft ∧ publishStatus ≠ PublishStatusInProgress
      ∧ publishStatus ≠ PublishStatusHalted) then do
      Errorln "Publish status not recognized. It needs to one of %s, %s, %s, %s"
        [PublishStatusDraft, PublishStatusHalted, PublishStatusInProgress,
          PublishStatusCompleted]
      osExit 1
    else pure ())
  pure { apkFile := apkFile, mappingFile := mappingFile, releaseNotes := releaseNotes,
         publishStatus := publishStatus }

/-- The function `uploadApkCommand`, lines 167-181: the service and the edit. -/
def uploadApkCommand.createEdit (env : Env) (upload : Command) : Run Edit := do
  let created ← doCall (Call.NewService (upload.GetString Key))
    (env.service.NewService (upload.GetString Key))
  (match created with
    | Except.error err => do
      Errorln "Failed to create publisher service:\n%s" [err]
      osExit 1
    | Except.ok _ => pure ())
  let inserted ← newEdit env.service (upload.GetString Id)
  (match inserted with
    | Except.error err => do
      Errorln "Failed to insert edit:\n%s" [err]
      osExit 1
    | Except.ok edit => pure edit)

/-- The function `uploadApkCommand`, lines 183-252: the steps within the edit. -/
def uploadApkCommand.publish (upload : Command) (vars : Locals) (edit : Edit) : Run Unit := do
  let listed ← edit.getListings
  let listings : ListingsListResponse ←
    (match listed with
      | Except.error err => do
        Errorln "Failed to list application listings:\n%s" [err]
        edit.delete
        osExit 1
      | Except.ok listings => pure listings)
  let uploaded ← edit.uploadApk vars.apkFile
  let apk : ApkData ←
    (match uploaded with
      | Except.error err => do
        Errorln "Failed to upload apk:\n%s" [err]
        edit.delete
        osExit 1
      | Except.ok apk => pure apk)
  -- If mapping file is set and available then proceed with mapping upload
  (match vars.mappingFile with
    | some mappingFile => do
      let mapped ← edit.uploadMappingFile apk.VersionCode mappingFile
      match mapped with
      | Except.error err => do
        Errorln "Failed to upload mapping file:\n%s" [err]
        edit.delete
        osExit 1
      | Except.ok _ => pure ()
    | none => pure ())
  -- `listings.Listings[0]` panics on an empty list
  let firstListing : Listing ←
    (match listings.Listings with
      | [] => goPanic "runtime error: index out of range [0] with length 0"
      | listing :: _ => pure listing)
  let localizedNotes : LocalizedText :=
    { Language := firstListing.Language, Text := vars.releaseNotes }
  let publishTrackRelease : TrackRelease :=
    { ReleaseNotes := [localizedNotes], Status := vars.publishStatus,
      VersionCodes := [apk.VersionCode] }
  let publishTrack : TrackData := { Track := "", Releases := [publishTrackRelease] }
  let updated ← edit.updateTrack (upload.GetString Track) publishTrack
  (match updated with
    | Except.error err => do
      Errorln "Failed to update track:\n%s" [err]
      edit.delete
      osExit 1
    | Except.ok _ => pure ())
  let validated ← edit.validate
  (match validated with
    | Except.error err => do
      Errorln "Failed to validate:\n%s" [err]
      edit.delete
      osExit 1
    | Except.ok _ => pure ())
  let committed ← edit.commit
  (match committed with
    | Except.error err => do
      Errorln "Failed to commit changes:\n%s" [err]
      edit.delete
      osExit 1
    | Except.ok _ => pure ())

/-- The function `uploadApkCommand` (lines 87-252).  The body is written as its
three consecutive parts, in the order of the source: the validation, the
creation of the service and of the edit, and the steps within the edit; the
local variables the later parts read are passed on as `Locals`. -/
def uploadApkCommand (env : Env) (upload : Command) : Run Unit := do
  let vars ← uploadApkCommand.validate env upload
  let edit ← uploadApkCommand.createEdit env upload
  uploadApkCommand.publish upload vars edit

/-! ## Specification-level notions -/

/-- The effective release notes, in the words of the specification: the content
of the file named by `releasenotesfile` when that flag is set, and otherwise the
value of the `releasenotes` flag. -/
def effectiveReleaseNotes (env : Env) (upload : Command) : Except Error String :=
  if upload.GetString ReleaseNotesFile = "" then Except.ok (upload.GetString ReleaseNotes)
  else env.fs.ReadFile (upload.GetString ReleaseNotesFile)

/-- The four publish statuses. -/
def publishStatuses : List String :=
  [PublishStatusCompleted, PublishStatusDraft, PublishStatusHalted, PublishStatusInProgress]

/-- The inputs that pass the checks of lines 88-142: the flags are parsed, the
required flags `id`, `key` and `track` are set, and the apk file, the mapping
file (when the flag is set) and the key file open. -/
structure Checked (env : Env) (upload : Command) : Prop where
  parsed : env.parseErr = none
  hasArgs : env.args ≠ []
  hasId : upload.GetString Id ≠ ""
  hasKey : upload.GetString Key ≠ ""
  hasTrack : upload.GetString Track ≠ ""
  apkOpens : env.fs.Open (upload.GetString Apk) = none
  mappingOpens : upload.GetString Mapping ≠ "" → env.fs.Open (upload.GetString Mapping) = none
  keyOpens : env.fs.Open (upload.GetString Key) = none

/-- The inputs that pass every check of the validation (lines 88-165), with the
effective release notes `notes`: at most 500 bytes, the quantity `len` measures. -/
structure Valid (env : Env) (upload : Command) (notes : String) : Prop where
  checked : Checked env upload
  hasNotes : effectiveReleaseNotes env upload = Except.ok notes
  notesSize : notes.utf8ByteSize ≤ 500
  hasStatus : upload.GetString Status ∈ publishStatuses

/-- The mapping upload of a run, when the mapping flag is set. -/
def mappingCalls (upload : Command) (editId : String) (apk : ApkData) : List Call :=
  if upload.GetString Mapping = "" then []
  else [Call.DeobfuscationfilesUpload (upload.GetString Id) editId apk.VersionCode "proguard"
    (upload.GetString Mapping) "application/octet-stream"]

/-- The calls of a run up to the artifact upload. -/
def uploadCalls (upload : Command) (editId : String) : List Call :=
  [Call.NewService (upload.GetString Key), Call.EditsInsert (upload.GetString Id),
    Call.ListingsList (upload.GetString Id) editId,
    Call.ApksUpload (upload.GetString Id) editId (upload.GetString Apk)
      "application/vnd.android.package-archive"]

/-- The track the program sends to the track update. -/
def publishTrack (upload : Command) (notes : String) (listing : Listing) (apk : ApkData) :
    TrackData :=
  { Track := "",
    Releases := [{ ReleaseNotes := [{ Language := listing.Language, Text := notes }],
                   Status := upload.GetString Status,
                   VersionCodes := [apk.VersionCode] }] }

/-- The runs of `uploadApkCommand`, path by path: the calls issued and the ending. -/
inductive Path (env : Env) (upload : Command) : List Call → Ending → Prop
  | rejected (h : ∀ notes, ¬ Valid env upload notes) : Path env upload [] (Ending.exit 1)
  | noService (notes : String) (v : Valid env upload notes) (e : Error)
      (h1 : env.service.NewService (upload.GetString Key) = Except.error e) :
      Path env upload [Call.NewService (upload.GetString Key)] (Ending.exit 1)
  | noEdit (notes : String) (v : Valid env upload notes) (e : Error)
      (h1 : env.service.NewService (upload.GetString Key) = Except.ok ())
      (h2 : env.service.EditsInsert (upload.GetString Id) = Except.error e) :
      Path env upload
        [Call.NewService (upload.GetString Key), Call.EditsInsert (upload.GetString Id)]
        (Ending.exit 1)
  | noListings (notes : String) (v : Valid env upload notes) (editId : String) (e : Error)
      (h1 : env.service.NewService (upload.GetString Key) = Except.ok ())
      (h2 : env.service.EditsInsert (upload.GetString Id) = Except.ok editId)
      (h3 : env.service.ListingsList (upload.GetString Id) editId = Except.error e) :
      Path env upload
        [Call.NewService (upload.GetString Key), Call.EditsInsert (upload.GetString Id),
          Call.ListingsList (upload.GetString Id) editId,
          Call.EditsDelete (upload.GetString Id) editId]
        (Ending.exit 1)
  | noApk (notes : String) (v : Valid env upload notes) (editId : String)
      (listings : ListingsListResponse) (e : Error)
      (h1 : env.service.NewService (upload.GetString Key) = Except.ok ())
      (h2 : env.service.EditsInsert (upload.GetString Id) = Except.ok editId)
      (h3 : env.service.ListingsList (upload.GetString Id) editId = Except.ok listings)
      (h4 : env.service.ApksUpload (upload.GetString Id) editId (upload.GetString Apk)
        "application/vnd.android.package-archive" = Except.error e) :
      Path env upload
        (uploadCalls upload editId ++ [Call.EditsDelete (upload.GetString Id) editId])
        (Ending.exit 1)
  | noMapping (notes : String) (v : Valid env upload notes) (editId : String)
      (listings : ListingsListResponse) (apk : ApkData) (e : Error)
      (h1 : env.service.NewService (upload.GetString Key) = Except.ok ())
      (h2 : env.service.EditsInsert (upload.GetString Id) = Except.ok editId)
      (h3 : env.service.ListingsList (upload.GetString Id) editId = Except.ok listings)
      (h4 : env.service.ApksUpload (upload.GetString Id) editId (upload.GetString Apk)
        "application/vnd.android.package-archive" = Except.ok apk)
      (hm : upload.GetString Mapping ≠ "")
      (h5 : env.service.DeobfuscationfilesUpload (upload.GetString Id) editId apk.VersionCode
        "proguard" (upload.GetString Mapping) "application/octet-stream" = Except.error e) :
      Path env upload
        (uploadCalls upload editId ++ mappingCalls upload editId apk ++
          [Call.EditsDelete (upload.GetString Id) editId])
        (Ending.exit 1)
  | noListing (notes : String) (v : Valid env upload notes) (editId : String)
      (listings : ListingsListResponse) (apk : ApkData)
      (h1 : env.service.NewService (upload.GetString Key) = Except.ok ())
      (h2 : env.service.EditsInsert (upload.GetString Id) = Except.ok editId)
      (h3 : env.service.ListingsList (upload.GetString Id) editId = Except.ok listings)
      (h4 : env.service.ApksUpload (upload.GetString Id) editId (upload.GetString Apk)
        "application/vnd.android.package-archive" = Except.ok apk)
      (h5 : upload.GetString Mapping ≠ "" →
        env.service.DeobfuscationfilesUpload (upload.GetString Id) editId apk.VersionCode
          "proguard" (upload.GetString Mapping) "application/octet-stream" = Except.ok ())
      (h6 : listings.Listings = []) :
      Path env upload (uploadCalls upload editId ++ mappingCalls upload editId apk)
        (Ending.panicked "runtime error: index out of range [0] with length 0")
  | noTrack (notes : String) (v : Valid env upload notes) (editId : String)
      (listings : ListingsListResponse) (apk : ApkData) (listing : Listing)
      (rest : List Listing) (e : Error)
      (h1 : env.service.NewService (upload.GetString Key) = Except.ok ())
      (h2 : env.service.EditsInsert (upload.GetString Id) = Except.ok editId)
      (h3 : env.service.ListingsList (upload.GetString Id) editId = Except.ok listings)
      (h4 : env.service.ApksUpload (upload.GetString Id) editId (upload.GetString Apk)
        "application/vnd.android.package-archive" = Except.ok apk)
      (h5 : upload.GetString Mapping ≠ "" →
        env.service.DeobfuscationfilesUpload (upload.GetString Id) editId apk.VersionCode
          "proguard" (upload.GetString Mapping) "application/octet-stream" = Except.ok ())
      (h6 : listings.Listings = listing :: rest)
      (h7 : env.service.TracksUpdate (upload.GetString Id) editId (upload.GetString Track)
        (publishTrack upload notes listing apk) = Except.error e) :
      Path env upload
        (uploadCalls upload editId ++ mappingCalls upload editId apk ++
          [Call.TracksUpdate (upload.GetString Id) editId (upload.GetString Track)
            (publishTrack upload notes listing apk),
           Call.EditsDelete (upload.GetString Id) editId])
        (Ending.exit 1)
  | noValidate (notes : String) (v : Valid env upload notes) (editId : String)
      (listings : ListingsListResponse) (apk : ApkData) (listing : Listing)
      (rest : List Listing) (track : TrackData) (e : Error)
      (h1 : env.service.NewService (upload.GetString Key) = Except.ok ())
      (h2 : env.service.EditsInsert (upload.GetString Id) = Except.ok editId)
      (h3 : env.service.ListingsList (upload.GetString Id) editId = Except.ok listings)
      (h4 : env.service.ApksUpload (upload.GetString Id) editId (upload.GetString Apk)
        "application/vnd.android.package-archive" = Except.ok apk)
      (h5 : upload.GetString Mapping ≠ "" →
        env.service.DeobfuscationfilesUpload (upload.GetString Id) editId apk.VersionCode
          "proguard" (upload.GetString Mapping) "application/octet-stream" = Except.ok ())
      (h6 : listings.Listings = listing :: rest)
      (h7 : env.service.TracksUpdate (upload.GetString Id) editId (upload.GetString Track)
        (publishTrack upload notes listing apk) = Except.ok track)
      (h8 : env.service.EditsValidate (upload.GetString Id) editId = Except.error e) :
      Path env upload
        (uploadCalls upload editId ++ mappingCalls upload editId apk ++
          [Call.TracksUpdate (upload.GetString Id) editId (upload.GetString Track)
            (publishTrack upload notes listing apk),
           Call.EditsValidate (upload.GetString Id) editId,
           Call.EditsDelete (upload.GetString Id) editId])
        (Ending.exit 1)
  | noCommit (notes : String) (v : Valid env upload notes) (editId : String)
      (listings : ListingsListResponse) (apk : ApkData) (listing : Listing)
      (rest : List Listing) (track : TrackData) (e : Error)
      (h1 : env.service.NewService (upload.GetString Key) = Except.ok ())
      (h2 : env.service.EditsInsert (upload.GetString Id) = Except.ok editId)
      (h3 : env.service.ListingsList (upload.GetString Id) editId = Except.ok listings)
      (h4 : env.service.ApksUpload (upload.GetString Id) editId (upload.GetString Apk)
        "application/vnd.android.package-archive" = Except.ok apk)
      (h5 : upload.GetString Mapping ≠ "" →
        env.service.DeobfuscationfilesUpload (upload.GetString Id) editId apk.VersionCode
          "proguard" (upload.GetString Mapping) "application/octet-stream" = Except.ok ())
      (h6 : listings.Listings = listing :: rest)
      (h7 : env.service.TracksUpdate (upload.GetString Id) editId (upload.GetString Track)
        (publishTrack upload notes listing apk) = Except.ok track)
      (h8 : env.service.EditsValidate (upload.GetString Id) editId = Except.ok ())
      (h9 : env.service.EditsCommit (upload.GetString Id) editId = Except.error e) :
      Path env upload
        (uploadCalls upload editId ++ mappingCalls upload editId apk ++
          [Call.TracksUpdate (upload.GetString Id) editId (upload.GetString Track)
            (publishTrack upload notes listing apk),
           Call.EditsValidate (upload.GetString Id) editId,
           Call.EditsCommit (upload.GetString Id) editId,
           Call.EditsDelete (upload.GetString Id) editId])
        (Ending.exit 1)
  | committed (notes : String) (v : Valid env upload notes) (editId : String)
      (listings : ListingsListResponse) (apk : ApkData) (listing : Listing)
      (rest : List Listing) (track : TrackData)
      (h1 : env.service.NewService (upload.GetString Key) = Except.ok ())
      (h2 : env.service.EditsInsert (upload.GetString Id) = Except.ok editId)
      (h3 : env.service.ListingsList (upload.GetString Id) editId = Except.ok listings)
      (h4 : env.service.ApksUpload (upload.GetString Id) editId (upload.GetString Apk)
        "application/vnd.android.package-archive" = Except.ok apk)
      (h5 : upload.GetString Mapping ≠ "" →
        env.service.DeobfuscationfilesUpload (upload.GetString Id) editId apk.VersionCode
          "proguard" (upload.GetString Mapping) "application/octet-stream" = Except.ok ())
      (h6 : listings.Listings = listing :: rest)
      (h7 : env.service.TracksUpdate (upload.GetString Id) editId (upload.GetString Track)
        (publishTrack upload notes listing apk) = Except.ok track)
      (h8 : env.service.EditsValidate (upload.GetString Id) editId = Except.ok ())
      (h9 : env.service.EditsCommit (upload.GetString Id) editId = Except.ok ()) :
      Path env upload
        (uploadCalls upload editId ++ mappingCalls upload editId apk ++
          [Call.TracksUpdate (upload.GetString Id) editId (upload.GetString Track)
            (publishTrack upload notes listing apk),
           Call.EditsValidate (upload.GetString Id) editId,
           Call.EditsCommit (upload.GetString Id) editId])
        Ending.returned

/-- The local variables after a validation that passes. -/
def validLocals (upload : Command) (notes : String) : Locals :=
  { apkFile := upload.GetString Apk,
    mappingFile := if upload.GetString Mapping = "" then none else some (upload.GetString Mapping),
    releaseNotes := notes,
    publishStatus := upload.GetString Status }

/-- A validation that ends the process with status 1 and issues no call. -/
def Rejects (log : Log) : Step Locals → Prop
  | Step.halt e l => e = Ending.exit 1 ∧ l.calls = log.calls
  | Step.cont _ _ => False

/-- Whether the service answers the call with an error. -/
def Service.failed (s : Service) : Call → Bool
  | Call.NewService k => !(s.NewService k).toBool
  | Call.EditsInsert p => !(s.EditsInsert p).toBool
  | Call.EditsDelete p e => (s.EditsDelete p e).isSome
  | Call.ListingsList p e => !(s.ListingsList p e).toBool
  | Call.ApksUpload p e m c => !(s.ApksUpload p e m c).toBool
  | Call.DeobfuscationfilesUpload p e v t m c => !(s.DeobfuscationfilesUpload p e v t m c).toBool
  | Call.TracksUpdate p e n t => !(s.TracksUpdate p e n t).toBool
  | Call.EditsValidate p e => !(s.EditsValidate p e).toBool
  | Call.EditsCommit p e => !(s.EditsCommit p e).toBool

/-- The calls of the steps within an edit: fetch listings, upload artifact,
upload mapping, update track, validate, commit. -/
def Call.isStep : Call → Bool
  | Call.ListingsList _ _ => true
  | Call.ApksUpload _ _ _ _ => true
  | Call.DeobfuscationfilesUpload _ _ _ _ _ _ => true
  | Call.TracksUpdate _ _ _ _ => true
  | Call.EditsValidate _ _ => true
  | Call.EditsCommit _ _ => true
  | _ => false

/-- The delete-edit calls. -/
def Call.isDelete : Call → Bool
  | Call.EditsDelete _ _ => true
  | _ => false

/-- The mapping-upload calls. -/
def Call.isMappingUpload : Call → Bool
  | Call.DeobfuscationfilesUpload _ _ _ _ _ _ => true
  | _ => false

/-- The list built from the empty list by a sequence of `Set` calls. -/
def setAll (values : List String) : arrayFlags :=
  values.foldl (fun i value => (arrayFlags.Set i value).1) []

/-- The effect of the flag library's `Parse` on one string flag given on the
command line: the value the flag points to becomes `value`. -/
def Command.withString (c : Command) (name value : String) : Command :=
  { c with strings := (name, value) :: c.strings }

/-! ## Concrete inputs -/

/-- A file system in which every file opens and reads as `"Bug fixes"`. -/
def demoFs : FileSystem :=
  { Open := fun _ => none, ReadFile := fun _ => Except.ok "Bug fixes" }

/-- A service whose calls all succeed: one listing in `en-US`, version code 42,
checksum `abc123`. -/
def demoService : Service :=
  { NewService := fun _ => Except.ok (),
    EditsInsert := fun _ => Except.ok "edit-1",
    EditsDelete := fun _ _ => none,
    ListingsList := fun _ _ => Except.ok { Listings := [{ Language := "en-US" }] },
    ApksUpload := fun _ _ _ _ =>
      Except.ok { Binary := { Sha1 := "abc123" }, VersionCode := 42 },
    DeobfuscationfilesUpload := fun _ _ _ _ _ _ => Except.ok (),
    TracksUpdate := fun _ _ name track => Except.ok { track with Track := name },
    EditsValidate := fun _ _ => Except.ok (),
    EditsCommit := fun _ _ => Except.ok () }

/-- The flags `-id com.example.app -key key.json -apk app.apk -track beta`. -/
def demoUpload : Command :=
  (((uploadCommand.withString Id "com.example.app").withString Key "key.json").withString
    Apk "app.apk").withString Track "beta"

/-- The arguments of `demoUpload`. -/
def demoArgs : List String :=
  ["-id", "com.example.app", "-key", "key.json", "-apk", "app.apk", "-track", "beta"]

/-- A run in which everything succeeds. -/
def demoEnv : Env :=
  { prog := "pspublisher", args := demoArgs, parseErr := none, fs := demoFs,
    service := demoService }

/-- Release notes of 600 characters. -/
def longNotes : String := String.mk (List.replicate 600 'x')

/-- A run in which the release-notes file `notes.txt` holds 600 characters. -/
def longNotesEnv : Env :=
  { prog := "pspublisher", args := demoArgs ++ ["-releasenotesfile", "notes.txt"],
    parseErr := none,
    fs := { Open := fun _ => none, ReadFile := fun _ => Except.ok longNotes },
    service := demoService }

/-- The flags of `demoUpload` and `-releasenotesfile notes.txt`. -/
def longNotesUpload : Command := demoUpload.withString ReleaseNotesFile "notes.txt"

/-- Release notes of 251 characters, each the letter e with an acute accent
(U+00E9, two bytes in UTF-8): 502 bytes. -/
def accentedNotes : String := String.mk (List.replicate 251 (Char.ofNat 233))

/-- The flags of `demoUpload` and `-releasenotes` with `accentedNotes`. -/
def accentedUpload : Command := demoUpload.withString ReleaseNotes accentedNotes

/-- A run in which the artifact upload fails and the delete call succeeds. -/
def failedUploadEnv : Env :=
  { demoEnv with
    service := { demoService with ApksUpload := fun _ _ _ _ => Except.error "upload failed" } }

/-- A run in which the listings response holds no listing. -/
def noListingEnv : Env :=
  { demoEnv with
    service := { demoService with ListingsList := fun _ _ => Except.ok { Listings := [] } } }

/-- The flags of `demoUpload` and `-mapping mapping.txt`. -/
def mappingUpload : Command := demoUpload.withString Mapping "mapping.txt"

/-! ## The run, statement by statement -/

set_option linter.unusedTactic false
set_option linter.unreachableTactic false

@[simp] theorem bind_apply {α β : Type} (m : Run α) (f : α → Run β) (log : Log) :
    (m >>= f) log = match m log with
      | Step.cont a log1 => f a log1
      | Step.halt e log1 => Step.halt e log1 := rfl

@[simp] theorem pure_apply {α : Type} (a : α) (log : Log) :
    (pure a : Run α) log = Step.cont a log := rfl


theorem status_ok (s : String) (h : s ∈ publishStatuses) :
    ¬ (s = "" ∨ (s ≠ PublishStatusCompleted ∧ s ≠ PublishStatusDraft ∧
      s ≠ PublishStatusInProgress ∧ s ≠ PublishStatusHalted)) := by
  simp only [publishStatuses, List.mem_cons, List.mem_singleton, List.not_mem_nil, or_false] at h
  rcases h with h | h | h | h <;> subst h <;>
    simp [PublishStatusCompleted, PublishStatusDraft, PublishStatusInProgress,
      PublishStatusHalted]

theorem status_bad (s : String) (h : s ∉ publishStatuses) :
    s = "" ∨ (s ≠ PublishStatusCompleted ∧ s ≠ PublishStatusDraft ∧
      s ≠ PublishStatusInProgress ∧ s ≠ PublishStatusHalted) := by
  simp only [publishStatuses, List.mem_cons, List.mem_singleton, List.not_mem_nil, or_false,
    not_or] at h
  exact Or.inr ⟨h.1, h.2.1, h.2.2.2, h.2.2.1⟩

theorem validate_ok (env : Env) (upload : Command) (notes : String)
    (v : Valid env upload notes) (log : Log) :
    uploadApkCommand.validate env upload log = Step.cont (validLocals upload notes) log := by
  have hst := status_ok _ v.hasStatus
  have hargs : env.args.length ≠ 0 := by
    have := v.checked.hasArgs
    simpa using this
  have hsz : ¬ notes.utf8ByteSize > 500 := by
    have := v.notesSize
    omega
  have hn := v.hasNotes
  unfold effectiveReleaseNotes at hn
  by_cases hm : upload.GetString Mapping = "" <;>
  by_cases hf : upload.GetString ReleaseNotesFile = ""
  · rw [if_pos hf] at hn
    cases hn
    simp [uploadApkCommand.validate, validLocals, v.checked.parsed, hargs, v.checked.hasId, v.checked.hasKey,
      v.checked.hasTrack, v.checked.apkOpens, v.checked.keyOpens, hm, hf, hsz, hst]
  · rw [if_neg hf] at hn
    simp [uploadApkCommand.validate, validLocals, v.checked.parsed, hargs, v.checked.hasId, v.checked.hasKey,
      v.checked.hasTrack, v.checked.apkOpens, v.checked.keyOpens, hm, hf, hn, hsz, hst]
  · rw [if_pos hf] at hn
    cases hn
    simp [uploadApkCommand.validate, validLocals, v.checked.parsed, hargs, v.checked.hasId, v.checked.hasKey,
      v.checked.hasTrack, v.checked.apkOpens, v.checked.keyOpens, hm, v.checked.mappingOpens hm, hf, hsz, hst]
  · rw [if_neg hf] at hn
    simp [uploadApkCommand.validate, validLocals, v.checked.parsed, hargs, v.checked.hasId, v.checked.hasKey,
      v.checked.hasTrack, v.checked.apkOpens, v.checked.keyOpens, hm, v.checked.mappingOpens hm, hf, hn, hsz, hst]

theorem validate_invalid (env : Env) (upload : Command)
    (h : ∀ notes, ¬ Valid env upload notes) (log : Log) :
    Rejects log (uploadApkCommand.validate env upload log) := by
  cases h1 : env.parseErr with
  | some e =>
    simp [uploadApkCommand.validate, h1, Errorln, osExit, showCommandHelp, PrintDefaults, Rejects]
  | none =>
  by_cases h2 : env.args.length = 0
  · simp [uploadApkCommand.validate, h1, h2, Errorln, osExit, showCommandHelp, PrintDefaults,
      Rejects]
  by_cases h3 : upload.GetString Id = ""
  · simp [uploadApkCommand.validate, h1, h2, h3, Errorln, osExit, Rejects]
  by_cases h4 : upload.GetString Key = ""
  · simp [uploadApkCommand.validate, h1, h2, h3, h4, Errorln, osExit, Rejects]
  by_cases h5 : upload.GetString Track = ""
  · simp [uploadApkCommand.validate, h1, h2, h3, h4, h5, Errorln, osExit, Rejects]
  cases h6 : env.fs.Open (upload.GetString Apk) with
  | some e =>
    simp [uploadApkCommand.validate, h1, h2, h3, h4, h5, h6, Errorln, osExit, Rejects]
  | none =>
  by_cases hm : upload.GetString Mapping = ""
  · cases h8 : env.fs.Open (upload.GetString Key) with
    | some e =>
      simp [uploadApkCommand.validate, h1, h2, h3, h4, h5, h6, hm, h8, Errorln, osExit, Rejects]
    | none =>
    by_cases hf : upload.GetString ReleaseNotesFile = ""
    · by_cases hsz : (upload.GetString ReleaseNotes).utf8ByteSize > 500
      · simp [uploadApkCommand.validate, h1, h2, h3, h4, h5, h6, hm, h8, hf, hsz, Errorln, osExit,
           Rejects]
      by_cases hs : upload.GetString Status ∈ publishStatuses
      · exfalso
        refine h (upload.GetString ReleaseNotes) ⟨⟨h1, ?_, h3, h4, h5, h6, ?_, h8⟩, ?_, ?_, hs⟩
        · intro ha
          exact h2 (by simp [ha])
        · intro hm2
          exact absurd hm hm2
        · simp [effectiveReleaseNotes, hf]
        · omega
      · have hb := status_bad _ hs
        simp [uploadApkCommand.validate, h1, h2, h3, h4, h5, h6, hm, h8, hf, hsz, hb, Errorln,
          osExit, Rejects]
    · cases h9 : env.fs.ReadFile (upload.GetString ReleaseNotesFile) with
      | error e =>
        simp [uploadApkCommand.validate, h1, h2, h3, h4, h5, h6, hm, h8, hf, h9, Errorln, osExit,
          Rejects]
      | ok notes =>
      by_cases hsz : notes.utf8ByteSize > 500
      · simp [uploadApkCommand.validate, h1, h2, h3, h4, h5, h6, hm, h8, hf, h9, hsz, Errorln,
          osExit, Rejects]
      by_cases hs : upload.GetString Status ∈ publishStatuses
      · exfalso
        refine h notes ⟨⟨h1, ?_, h3, h4, h5, h6, ?_, h8⟩, ?_, ?_, hs⟩
        · intro ha
          exact h2 (by simp [ha])
        · intro hm2
          exact absurd hm hm2
        · simp [effectiveReleaseNotes, hf, h9]
        · omega
      · have hb := status_bad _ hs
        simp [uploadApkCommand.validate, h1, h2, h3, h4, h5, h6, hm, h8, hf, h9, hsz, hb, Errorln,
           osExit, Rejects]
  · cases h7 : env.fs.Open (upload.GetString Mapping) with
    | some e =>
      simp [uploadApkCommand.validate, h1, h2, h3, h4, h5, h6, hm, h7, Errorln, osExit, Rejects]
    | none =>
    cases h8 : env.fs.Open (upload.GetString Key) with
    | some e =>
      simp [uploadApkCommand.validate, h1, h2, h3, h4, h5, h6, hm, h7, h8, Errorln, osExit,
        Rejects]
    | none =>
    by_cases hf : upload.GetString ReleaseNotesFile = ""
    · by_cases hsz : (upload.GetString ReleaseNotes).utf8ByteSize > 500
      · simp [uploadApkCommand.validate, h1, h2, h3, h4, h5, h6, hm, h7, h8, hf, hsz, Errorln,
          osExit, Rejects]
      by_cases hs : upload.GetString Status ∈ publishStatuses
      · exfalso
        refine h (upload.GetString ReleaseNotes) ⟨⟨h1, ?_, h3, h4, h5, h6, ?_, h8⟩, ?_, ?_, hs⟩
        · intro ha
          exact h2 (by simp [ha])
        · intro _
          exact h7
        · simp [effectiveReleaseNotes, hf]
        · omega
      · have hb := status_bad _ hs
        simp [uploadApkCommand.validate, h1, h2, h3, h4, h5, h6, hm, h7, h8, hf, hsz, hb, Errorln,
           osExit, Rejects]
    · cases h9 : env.fs.ReadFile (upload.GetString ReleaseNotesFile) with
      | error e =>
        simp [uploadApkCommand.validate, h1, h2, h3, h4, h5, h6, hm, h7, h8, hf, h9, Errorln,
          osExit, Rejects]
      | ok notes =>
      by_cases hsz : notes.utf8ByteSize > 500
      · simp [uploadApkCommand.validate, h1, h2, h3, h4, h5, h6, hm, h7, h8, hf, h9, hsz, Errorln,
           osExit, Rejects]
      by_cases hs : upload.GetString Status ∈ publishStatuses
      · exfalso
        refine h notes ⟨⟨h1, ?_, h3, h4, h5, h6, ?_, h8⟩, ?_, ?_, hs⟩
        · intro ha
          exact h2 (by simp [ha])
        · intro _
          exact h7
        · simp [effectiveReleaseNotes, hf, h9]
        · omega
      · have hb := status_bad _ hs
        simp [uploadApkCommand.validate, h1, h2, h3, h4, h5, h6, hm, h7, h8, hf, h9, hsz, hb,
          Errorln, osExit, Rejects]

theorem run_valid (env : Env) (upload : Command) (notes : String)
    (v : Valid env upload notes) :
    (uploadApkCommand env upload).outcome =
      Run.outcome (uploadApkCommand.createEdit env upload >>=
        uploadApkCommand.publish upload (validLocals upload notes)) := by
  simp [uploadApkCommand, Run.outcome, validate_ok env upload notes v]

theorem run_invalid (env : Env) (upload : Command)
    (h : ∀ notes, ¬ Valid env upload notes) :
    (uploadApkCommand env upload).outcome.calls = [] ∧
      (uploadApkCommand env upload).outcome.ending = Ending.exit 1 := by
  have hr := validate_invalid env upload h { calls := [], stderr := [] }
  cases hv : uploadApkCommand.validate env upload { calls := [], stderr := [] } with
  | cont a l =>
    rw [hv] at hr
    exact hr.elim
  | halt e l =>
    rw [hv] at hr
    simp only [Rejects] at hr
    simp [uploadApkCommand, Run.outcome, hv, hr.1, hr.2]

/-- Every run of `uploadApkCommand` follows one of the paths. -/
theorem run_path (env : Env) (upload : Command) :
    Path env upload (uploadApkCommand env upload).outcome.calls
      (uploadApkCommand env upload).outcome.ending := by
  by_cases hv : ∃ notes, Valid env upload notes
  swap
  · have hinv : ∀ notes, ¬ Valid env upload notes := fun n hn => hv ⟨n, hn⟩
    have hc := run_invalid env upload hinv
    rw [hc.1, hc.2]
    exact Path.rejected hinv
  obtain ⟨notes, v⟩ := hv
  rw [run_valid env upload notes v]
  cases h1 : env.service.NewService (upload.GetString Key) with
  | error e =>
    have hc : (Run.outcome (uploadApkCommand.createEdit env upload >>=
        uploadApkCommand.publish upload (validLocals upload notes))).calls =
          [Call.NewService (upload.GetString Key)] ∧
        (Run.outcome (uploadApkCommand.createEdit env upload >>=
        uploadApkCommand.publish upload (validLocals upload notes))).ending =
          Ending.exit 1 := by
      simp [Run.outcome, uploadApkCommand.createEdit, doCall, h1, Errorln, osExit]
    rw [hc.1, hc.2]
    exact Path.noService notes v e h1
  | ok u =>
  cases h2 : env.service.EditsInsert (upload.GetString Id) with
  | error e =>
    have hc : (Run.outcome (uploadApkCommand.createEdit env upload >>=
        uploadApkCommand.publish upload (validLocals upload notes))).calls =
          [Call.NewService (upload.GetString Key), Call.EditsInsert (upload.GetString Id)] ∧
        (Run.outcome (uploadApkCommand.createEdit env upload >>=
        uploadApkCommand.publish upload (validLocals upload notes))).ending =
          Ending.exit 1 := by
      simp [Run.outcome, uploadApkCommand.createEdit, newEdit, doCall, h1, h2, Errorln, osExit]
    rw [hc.1, hc.2]
    exact Path.noEdit notes v e h1 h2
  | ok editId =>
  cases h3 : env.service.ListingsList (upload.GetString Id) editId with
  | error e =>
    have hc : (Run.outcome (uploadApkCommand.createEdit env upload >>=
        uploadApkCommand.publish upload (validLocals upload notes))).calls =
          [Call.NewService (upload.GetString Key), Call.EditsInsert (upload.GetString Id),
            Call.ListingsList (upload.GetString Id) editId,
            Call.EditsDelete (upload.GetString Id) editId] ∧
        (Run.outcome (uploadApkCommand.createEdit env upload >>=
        uploadApkCommand.publish upload (validLocals upload notes))).ending =
          Ending.exit 1 := by
      cases hd : env.service.EditsDelete (upload.GetString Id) editId <;>
      simp [Run.outcome, uploadApkCommand.createEdit, newEdit, doCall, h1, h2,
        uploadApkCommand.publish, Edit.getListings, Edit.delete, h3, hd, Errorln, osExit]
    rw [hc.1, hc.2]
    exact Path.noListings notes v editId e h1 h2 h3
  | ok listings =>
  cases h4 : env.service.ApksUpload (upload.GetString Id) editId (upload.GetString Apk)
      "application/vnd.android.package-archive" with
  | error e =>
    have hc : (Run.outcome (uploadApkCommand.createEdit env upload >>=
        uploadApkCommand.publish upload (validLocals upload notes))).calls =
          uploadCalls upload editId ++ [Call.EditsDelete (upload.GetString Id) editId] ∧
        (Run.outcome (uploadApkCommand.createEdit env upload >>=
        uploadApkCommand.publish upload (validLocals upload notes))).ending =
          Ending.exit 1 := by
      cases hd : env.service.EditsDelete (upload.GetString Id) editId
      · simp [Run.outcome, uploadApkCommand.createEdit, newEdit, doCall, h1, h2,
          uploadApkCommand.publish, Edit.getListings, Edit.uploadApk, Edit.uploadMappingFile,
          Edit.updateTrack, Edit.validate, Edit.commit, Edit.delete, validLocals, uploadCalls,
          mappingCalls, publishTrack, goPanic, Errorln, osExit, h3, h4, hd]
      · simp [Run.outcome, uploadApkCommand.createEdit, newEdit, doCall, h1, h2,
          uploadApkCommand.publish, Edit.getListings, Edit.uploadApk, Edit.uploadMappingFile,
          Edit.updateTrack, Edit.validate, Edit.commit, Edit.delete, validLocals, uploadCalls,
          mappingCalls, publishTrack, goPanic, Errorln, osExit, h3, h4, hd]
    rw [hc.1, hc.2]
    exact Path.noApk notes v editId listings e h1 h2 h3 h4
  | ok apk =>
  by_cases h5 : upload.GetString Mapping ≠ "" ∧ ∃ e,
      env.service.DeobfuscationfilesUpload (upload.GetString Id) editId apk.VersionCode
        "proguard" (upload.GetString Mapping) "application/octet-stream" = Except.error e
  · obtain ⟨hm, e, h5⟩ := h5
    have hc : (Run.outcome (uploadApkCommand.createEdit env upload >>=
        uploadApkCommand.publish upload (validLocals upload notes))).calls =
          uploadCalls upload editId ++ mappingCalls upload editId apk ++
            [Call.EditsDelete (upload.GetString Id) editId] ∧
        (Run.outcome (uploadApkCommand.createEdit env upload >>=
        uploadApkCommand.publish upload (validLocals upload notes))).ending =
          Ending.exit 1 := by
      cases hd : env.service.EditsDelete (upload.GetString Id) editId
      · simp [Run.outcome, uploadApkCommand.createEdit, newEdit, doCall, h1, h2,
          uploadApkCommand.publish, Edit.getListings, Edit.uploadApk, Edit.uploadMappingFile,
          Edit.updateTrack, Edit.validate, Edit.commit, Edit.delete, validLocals, uploadCalls,
          mappingCalls, publishTrack, goPanic, Errorln, osExit, h3, h4, hm, h5, hd]
      · simp [Run.outcome, uploadApkCommand.createEdit, newEdit, doCall, h1, h2,
          uploadApkCommand.publish, Edit.getListings, Edit.uploadApk, Edit.uploadMappingFile,
          Edit.updateTrack, Edit.validate, Edit.commit, Edit.delete, validLocals, uploadCalls,
          mappingCalls, publishTrack, goPanic, Errorln, osExit, h3, h4, hm, h5, hd]
    rw [hc.1, hc.2]
    exact Path.noMapping notes v editId listings apk e h1 h2 h3 h4 hm h5
  have h5m : upload.GetString Mapping ≠ "" →
      env.service.DeobfuscationfilesUpload (upload.GetString Id) editId apk.VersionCode
        "proguard" (upload.GetString Mapping) "application/octet-stream" = Except.ok () := by
    intro hm
    cases hx : env.service.DeobfuscationfilesUpload (upload.GetString Id) editId
        apk.VersionCode "proguard" (upload.GetString Mapping) "application/octet-stream" with
    | error e => exact absurd ⟨hm, e, hx⟩ h5
    | ok u => rfl
  cases h6 : listings.Listings with
  | nil =>
    have hc : (Run.outcome (uploadApkCommand.createEdit env upload >>=
        uploadApkCommand.publish upload (validLocals upload notes))).calls =
          uploadCalls upload editId ++ mappingCalls upload editId apk ∧
        (Run.outcome (uploadApkCommand.createEdit env upload >>=
        uploadApkCommand.publish upload (validLocals upload notes))).ending =
          Ending.panicked "runtime error: index out of range [0] with length 0" := by
      · by_cases hm : upload.GetString Mapping = ""
        · simp [Run.outcome, uploadApkCommand.createEdit, newEdit, doCall, h1, h2,
          uploadApkCommand.publish, Edit.getListings, Edit.uploadApk, Edit.uploadMappingFile,
          Edit.updateTrack, Edit.validate, Edit.commit, Edit.delete, validLocals, uploadCalls,
          mappingCalls, publishTrack, goPanic, Errorln, osExit, h3, h4, h6, hm]
        · have h5x := h5m hm
          simp [Run.outcome, uploadApkCommand.createEdit, newEdit, doCall, h1, h2,
          uploadApkCommand.publish, Edit.getListings, Edit.uploadApk, Edit.uploadMappingFile,
          Edit.updateTrack, Edit.validate, Edit.commit, Edit.delete, validLocals, uploadCalls,
          mappingCalls, publishTrack, goPanic, Errorln, osExit, h3, h4, h6, hm, h5x]
    rw [hc.1, hc.2]
    exact Path.noListing notes v editId listings apk h1 h2 h3 h4 h5m h6
  | cons listing rest =>
  cases h7 : env.service.TracksUpdate (upload.GetString Id) editId (upload.GetString Track)
      (publishTrack upload notes listing apk) with
  | error e =>
    have h7x := h7
    simp only [publishTrack] at h7x
    have hc : (Run.outcome (uploadApkCommand.createEdit env upload >>=
        uploadApkCommand.publish upload (validLocals upload notes))).calls =
          uploadCalls upload editId ++ mappingCalls upload editId apk ++
            [Call.TracksUpdate (upload.GetString Id) editId (upload.GetString Track)
              (publishTrack upload notes listing apk),
             Call.EditsDelete (upload.GetString Id) editId] ∧
        (Run.outcome (uploadApkCommand.createEdit env upload >>=
        uploadApkCommand.publish upload (validLocals upload notes))).ending =
          Ending.exit 1 := by
      cases hd : env.service.EditsDelete (upload.GetString Id) editId
      · by_cases hm : upload.GetString Mapping = ""
        · simp [Run.outcome, uploadApkCommand.createEdit, newEdit, doCall, h1, h2,
          uploadApkCommand.publish, Edit.getListings, Edit.uploadApk, Edit.uploadMappingFile,
          Edit.updateTrack, Edit.validate, Edit.commit, Edit.delete, validLocals, uploadCalls,
          mappingCalls, publishTrack, goPanic, Errorln, osExit, h3, h4, h6, h7x, hd, hm]
        · have h5x := h5m hm
          simp [Run.outcome, uploadApkCommand.createEdit, newEdit, doCall, h1, h2,
          uploadApkCommand.publish, Edit.getListings, Edit.uploadApk, Edit.uploadMappingFile,
          Edit.updateTrack, Edit.validate, Edit.commit, Edit.delete, validLocals, uploadCalls,
          mappingCalls, publishTrack, goPanic, Errorln, osExit, h3, h4, h6, h7x, hd, hm, h5x]
      · by_cases hm : upload.GetString Mapping = ""
        · simp [Run.outcome, uploadApkCommand.createEdit, newEdit, doCall, h1, h2,
          uploadApkCommand.publish, Edit.getListings, Edit.uploadApk, Edit.uploadMappingFile,
          Edit.updateTrack, Edit.validate, Edit.commit, Edit.delete, validLocals, uploadCalls,
          mappingCalls, publishTrack, goPanic, Errorln, osExit, h3, h4, h6, h7x, hd, hm]
        · have h5x := h5m hm
          simp [Run.outcome, uploadApkCommand.createEdit, newEdit, doCall, h1, h2,
          uploadApkCommand.publish, Edit.getListings, Edit.uploadApk, Edit.uploadMappingFile,
          Edit.updateTrack, Edit.validate, Edit.commit, Edit.delete, validLocals, uploadCalls,
          mappingCalls, publishTrack, goPanic, Errorln, osExit, h3, h4, h6, h7x, hd, hm, h5x]
    rw [hc.1, hc.2]
    exact Path.noTrack notes v editId listings apk listing rest e h1 h2 h3 h4 h5m h6 h7
  | ok track =>
  have h7x := h7
  simp only [publishTrack] at h7x
  cases h8 : env.service.EditsValidate (upload.GetString Id) editId with
  | error e =>
    have hc : (Run.outcome (uploadApkCommand.createEdit env upload >>=
        uploadApkCommand.publish upload (validLocals upload notes))).calls =
          uploadCalls upload editId ++ mappingCalls upload editId apk ++
            [Call.TracksUpdate (upload.GetString Id) editId (upload.GetString Track)
              (publishTrack upload notes listing apk),
             Call.EditsValidate (upload.GetString Id) editId,
             Call.EditsDelete (upload.GetString Id) editId] ∧
        (Run.outcome (uploadApkCommand.createEdit env upload >>=
        uploadApkCommand.publish upload (validLocals upload notes))).ending =
          Ending.exit 1 := by
      cases hd : env.service.EditsDelete (upload.GetString Id) editId
      · by_cases hm : upload.GetString Mapping = ""
        · simp [Run.outcome, uploadApkCommand.createEdit, newEdit, doCall, h1, h2,
          uploadApkCommand.publish, Edit.getListings, Edit.uploadApk, Edit.uploadMappingFile,
          Edit.updateTrack, Edit.validate, Edit.commit, Edit.delete, validLocals, uploadCalls,
          mappingCalls, publishTrack, goPanic, Errorln, osExit, h3, h4, h6, h7x, h8, hd, hm]
        · have h5x := h5m hm
          simp [Run.outcome, uploadApkCommand.createEdit, newEdit, doCall, h1, h2,
          uploadApkCommand.publish, Edit.getListings, Edit.uploadApk, Edit.uploadMappingFile,
          Edit.updateTrack, Edit.validate, Edit.commit, Edit.delete, validLocals, uploadCalls,
          mappingCalls, publishTrack, goPanic, Errorln, osExit, h3, h4, h6, h7x, h8, hd, hm, h5x]
      · by_cases hm : upload.GetString Mapping = ""
        · simp [Run.outcome, uploadApkCommand.createEdit, newEdit, doCall, h1, h2,
          uploadApkCommand.publish, Edit.getListings, Edit.uploadApk, Edit.uploadMappingFile,
          Edit.updateTrack, Edit.validate, Edit.commit, Edit.delete, validLocals, uploadCalls,
          mappingCalls, publishTrack, goPanic, Errorln, osExit, h3, h4, h6, h7x, h8, hd, hm]
        · have h5x := h5m hm
          simp [Run.outcome, uploadApkCommand.createEdit, newEdit, doCall, h1, h2,
          uploadApkCommand.publish, Edit.getListings, Edit.uploadApk, Edit.uploadMappingFile,
          Edit.updateTrack, Edit.validate, Edit.commit, Edit.delete, validLocals, uploadCalls,
          mappingCalls, publishTrack, goPanic, Errorln, osExit, h3, h4, h6, h7x, h8, hd, hm, h5x]
    rw [hc.1, hc.2]
    exact Path.noValidate notes v editId listings apk listing rest track e h1 h2 h3 h4 h5m h6 h7 h8
  | ok u8 =>
  cases h9 : env.service.EditsCommit (upload.GetString Id) editId with
  | error e =>
    have hc : (Run.outcome (uploadApkCommand.createEdit env upload >>=
        uploadApkCommand.publish upload (validLocals upload notes))).calls =
          uploadCalls upload editId ++ mappingCalls upload editId apk ++
            [Call.TracksUpdate (upload.GetString Id) editId (upload.GetString Track)
              (publishTrack upload notes listing apk),
             Call.EditsValidate (upload.GetString Id) editId,
             Call.EditsCommit (upload.GetString Id) editId,
             Call.EditsDelete (upload.GetString Id) editId] ∧
        (Run.outcome (uploadApkCommand.createEdit env upload >>=
        uploadApkCommand.publish upload (validLocals upload notes))).ending =
          Ending.exit 1 := by
      cases hd : env.service.EditsDelete (upload.GetString Id) editId
      · by_cases hm : upload.GetString Mapping = ""
        · simp [Run.outcome, uploadApkCommand.createEdit, newEdit, doCall, h1, h2,
          uploadApkCommand.publish, Edit.getListings, Edit.uploadApk, Edit.uploadMappingFile,
          Edit.updateTrack, Edit.validate, Edit.commit, Edit.delete, validLocals, uploadCalls,
          mappingCalls, publishTrack, goPanic, Errorln, osExit, h3, h4, h6, h7x, h8, h9, hd, hm]
        · have h5x := h5m hm
          simp [Run.outcome, uploadApkCommand.createEdit, newEdit, doCall, h1, h2,
          uploadApkCommand.publish, Edit.getListings, Edit.uploadApk, Edit.uploadMappingFile,
          Edit.updateTrack, Edit.validate, Edit.commit, Edit.delete, validLocals, uploadCalls,
          mappingCalls, publishTrack, goPanic, Errorln, osExit, h3, h4, h6, h7x, h8, h9, hd, hm, h5x]
      · by_cases hm : upload.GetString Mapping = ""
        · simp [Run.outcome, uploadApkCommand.createEdit, newEdit, doCall, h1, h2,
          uploadApkCommand.publish, Edit.getListings, Edit.uploadApk, Edit.uploadMappingFile,
          Edit.updateTrack, Edit.validate, Edit.commit, Edit.delete, validLocals, uploadCalls,
          mappingCalls, publishTrack, goPanic, Errorln, osExit, h3, h4, h6, h7x, h8, h9, hd, hm]
        · have h5x := h5m hm
          simp [Run.outcome, uploadApkCommand.createEdit, newEdit, doCall, h1, h2,
          uploadApkCommand.publish, Edit.getListings, Edit.uploadApk, Edit.uploadMappingFile,
          Edit.updateTrack, Edit.validate, Edit.commit, Edit.delete, validLocals, uploadCalls,
          mappingCalls, publishTrack, goPanic, Errorln, osExit, h3, h4, h6, h7x, h8, h9, hd, hm, h5x]
    rw [hc.1, hc.2]
    exact Path.noCommit notes v editId listings apk listing rest track e h1 h2 h3 h4 h5m h6 h7 h8 h9
  | ok u9 =>
    have hc : (Run.outcome (uploadApkCommand.createEdit env upload >>=
        uploadApkCommand.publish upload (validLocals upload notes))).calls =
          uploadCalls upload editId ++ mappingCalls upload editId apk ++
            [Call.TracksUpdate (upload.GetString Id) editId (upload.GetString Track)
              (publishTrack upload notes listing apk),
             Call.EditsValidate (upload.GetString Id) editId,
             Call.EditsCommit (upload.GetString Id) editId] ∧
        (Run.outcome (uploadApkCommand.createEdit env upload >>=
        uploadApkCommand.publish upload (validLocals upload notes))).ending =
          Ending.returned := by
      · by_cases hm : upload.GetString Mapping = ""
        · simp [Run.outcome, uploadApkCommand.createEdit, newEdit, doCall, h1, h2,
          uploadApkCommand.publish, Edit.getListings, Edit.uploadApk, Edit.uploadMappingFile,
          Edit.updateTrack, Edit.validate, Edit.commit, Edit.delete, validLocals, uploadCalls,
          mappingCalls, publishTrack, goPanic, Errorln, osExit, h3, h4, h6, h7x, h8, h9, hm]
        · have h5x := h5m hm
          simp [Run.outcome, uploadApkCommand.createEdit, newEdit, doCall, h1, h2,
          uploadApkCommand.publish, Edit.getListings, Edit.uploadApk, Edit.uploadMappingFile,
          Edit.updateTrack, Edit.validate, Edit.commit, Edit.delete, validLocals, uploadCalls,
          mappingCalls, publishTrack, goPanic, Errorln, osExit, h3, h4, h6, h7x, h8, h9, hm, h5x]
    rw [hc.1, hc.2]
    exact Path.committed notes v editId listings apk listing rest track h1 h2 h3 h4 h5m h6 h7 h8 h9


theorem length_le_utf8ByteSize (s : String) : s.length ≤ s.utf8ByteSize := by
  have key : ∀ cs : List Char, cs.length ≤ String.utf8ByteSize.go cs := by
    intro cs
    induction cs with
    | nil => simp [String.utf8ByteSize.go]
    | cons c cs ih =>
      have hc := Char.utf8Size_pos c
      simp only [String.utf8ByteSize.go, List.length_cons]
      omega
  cases s with
  | mk cs => exact key cs

/-- The run of an input that passes the checks of lines 88-142 and whose
effective release notes are longer than 500 bytes. -/
theorem run_notes_too_long (env : Env) (upload : Command) (notes : String)
    (c : Checked env upload) (hn : effectiveReleaseNotes env upload = Except.ok notes)
    (hsz : 500 < notes.utf8ByteSize) :
    (uploadApkCommand env upload).outcome =
      { calls := [],
        stderr := [ErrLine.line "Release notes cannot exceed 500 characters\n" []],
        ending := Ending.exit 1 } := by
  have hargs : env.args.length ≠ 0 := by
    have := c.hasArgs
    simpa using this
  unfold effectiveReleaseNotes at hn
  by_cases hm : upload.GetString Mapping = "" <;>
  by_cases hf : upload.GetString ReleaseNotesFile = ""
  · rw [if_pos hf] at hn
    cases hn
    simp [uploadApkCommand, Run.outcome, uploadApkCommand.validate, c.parsed, hargs, c.hasId,
      c.hasKey, c.hasTrack, c.apkOpens, c.keyOpens, hm, hf, hsz, Errorln, osExit]
  · rw [if_neg hf] at hn
    simp [uploadApkCommand, Run.outcome, uploadApkCommand.validate, c.parsed, hargs, c.hasId,
      c.hasKey, c.hasTrack, c.apkOpens, c.keyOpens, hm, hf, hn, hsz, Errorln, osExit]
  · rw [if_pos hf] at hn
    cases hn
    simp [uploadApkCommand, Run.outcome, uploadApkCommand.validate, c.parsed, hargs, c.hasId,
      c.hasKey, c.hasTrack, c.apkOpens, c.keyOpens, hm, c.mappingOpens hm, hf, hsz, Errorln,
      osExit]
  · rw [if_neg hf] at hn
    simp [uploadApkCommand, Run.outcome, uploadApkCommand.validate, c.parsed, hargs, c.hasId,
      c.hasKey, c.hasTrack, c.apkOpens, c.keyOpens, hm, c.mappingOpens hm, hf, hn, hsz,
      Errorln, osExit]

/-- C1: every configuration that fails a check of the input validation (an
empty `id`, `key` or `track`, an apk, mapping or key file that does not open, a
release-notes file that cannot be read, release notes over the length bound,
counted in characters or in bytes, or a status that is not one of the four) ends
with exit status 1 and issues no remote call: the service is not created and
create-edit is never called. -/
theorem validation_failure_issues_no_call (env : Env) (upload : Command)
    (h : upload.GetString Id = "" ∨ upload.GetString Key = "" ∨ upload.GetString Track = "" ∨
      env.fs.Open (upload.GetString Apk) ≠ none ∨
      (upload.GetString Mapping ≠ "" ∧ env.fs.Open (upload.GetString Mapping) ≠ none) ∨
      env.fs.Open (upload.GetString Key) ≠ none ∨
      (upload.GetString ReleaseNotesFile ≠ "" ∧
        ∃ e, env.fs.ReadFile (upload.GetString ReleaseNotesFile) = Except.error e) ∨
      (upload.GetString ReleaseNotesFile ≠ "" ∧
        ∃ notes, env.fs.ReadFile (upload.GetString ReleaseNotesFile) = Except.ok notes ∧
          (500 < notes.length ∨ 500 < notes.utf8ByteSize)) ∨
      (upload.GetString ReleaseNotesFile = "" ∧
        (500 < (upload.GetString ReleaseNotes).length ∨
          500 < (upload.GetString ReleaseNotes).utf8ByteSize)) ∨
      upload.GetString Status ∉
        ["completed", "draft", "halted", "inProgress"]) :
    (uploadApkCommand env upload).outcome.calls = [] ∧
      (uploadApkCommand env upload).outcome.ending = Ending.exit 1 ∧
      (uploadApkCommand env upload).outcome.ending.exitCode ≠ 0 ∧
      Call.NewService (upload.GetString Key) ∉ (uploadApkCommand env upload).outcome.calls ∧
      Call.EditsInsert (upload.GetString Id) ∉ (uploadApkCommand env upload).outcome.calls := by
  have hinv : ∀ notes, ¬ Valid env upload notes := by
    intro notes v
    have hn := v.hasNotes
    unfold effectiveReleaseNotes at hn
    rcases h with h | h | h | h | h | h | h | h | h | h
    · exact v.checked.hasId h
    · exact v.checked.hasKey h
    · exact v.checked.hasTrack h
    · exact h v.checked.apkOpens
    · exact h.2 (v.checked.mappingOpens h.1)
    · exact h v.checked.keyOpens
    · obtain ⟨hf, e, he⟩ := h
      rw [if_neg hf, he] at hn
      cases hn
    · obtain ⟨hf, n, hr, hlen⟩ := h
      rw [if_neg hf, hr] at hn
      cases hn
      have h1 := length_le_utf8ByteSize notes
      have h2 := v.notesSize
      omega
    · obtain ⟨hf, hlen⟩ := h
      rw [if_pos hf] at hn
      cases hn
      have h1 := length_le_utf8ByteSize (upload.GetString ReleaseNotes)
      have h2 := v.notesSize
      omega
    · exact h v.hasStatus
  have hr := run_invalid env upload hinv
  rw [hr.1, hr.2]
  simp [Ending.exitCode]

/-- C1 at the command with every flag at its default: `id` is empty. -/
theorem validation_failure_issues_no_call_witness :
    (uploadApkCommand demoEnv uploadCommand).outcome.calls = [] ∧
      (uploadApkCommand demoEnv uploadCommand).outcome.ending = Ending.exit 1 ∧
      (uploadApkCommand demoEnv uploadCommand).outcome.ending.exitCode ≠ 0 ∧
      Call.NewService (uploadCommand.GetString Key) ∉
        (uploadApkCommand demoEnv uploadCommand).outcome.calls ∧
      Call.EditsInsert (uploadCommand.GetString Id) ∉
        (uploadApkCommand demoEnv uploadCommand).outcome.calls :=
  validation_failure_issues_no_call demoEnv uploadCommand (Or.inl (by decide))

theorem utf8ByteSize_replicate (n : Nat) (c : Char) :
    (String.mk (List.replicate n c)).utf8ByteSize = n * c.utf8Size := by
  have key : ∀ k : Nat, String.utf8ByteSize.go (List.replicate k c) = k * c.utf8Size := by
    intro k
    induction k with
    | zero => simp [String.utf8ByteSize.go]
    | succ k ih =>
      simp only [List.replicate_succ, String.utf8ByteSize.go, ih]
      rw [Nat.succ_mul]
  exact key n

/-- The run of an input that passes the checks of lines 88-142 and whose
release-notes file cannot be read. -/
theorem run_notes_unreadable (env : Env) (upload : Command) (e : Error)
    (c : Checked env upload) (hf : upload.GetString ReleaseNotesFile ≠ "")
    (hr : env.fs.ReadFile (upload.GetString ReleaseNotesFile) = Except.error e) :
    (uploadApkCommand env upload).outcome =
      { calls := [],
        stderr := [ErrLine.line "Cannot read release notes file contents:\n%s" [e]],
        ending := Ending.exit 1 } := by
  have hargs : env.args.length ≠ 0 := by
    have := c.hasArgs
    simpa using this
  by_cases hm : upload.GetString Mapping = ""
  · simp [uploadApkCommand, Run.outcome, uploadApkCommand.validate, c.parsed, hargs, c.hasId,
      c.hasKey, c.hasTrack, c.apkOpens, c.keyOpens, hm, hf, hr, Errorln, osExit]
  · simp [uploadApkCommand, Run.outcome, uploadApkCommand.validate, c.parsed, hargs, c.hasId,
      c.hasKey, c.hasTrack, c.apkOpens, c.keyOpens, hm, c.mappingOpens hm, hf, hr, Errorln,
      osExit]

/-- The run of an input that passes every check before the status check and
whose status is not one of the four. -/
theorem run_status_unknown (env : Env) (upload : Command) (notes : String)
    (c : Checked env upload) (hn : effectiveReleaseNotes env upload = Except.ok notes)
    (hsz : notes.utf8ByteSize ≤ 500) (hs : upload.GetString Status ∉ publishStatuses) :
    (uploadApkCommand env upload).outcome =
      { calls := [],
        stderr := [ErrLine.line
          "Publish status not recognized. It needs to one of %s, %s, %s, %s"
          ["draft", "halted", "inProgress", "completed"]],
        ending := Ending.exit 1 } := by
  have hargs : env.args.length ≠ 0 := by
    have := c.hasArgs
    simpa using this
  have hsz2 : ¬ notes.utf8ByteSize > 500 := by omega
  have hb := status_bad _ hs
  simp only [PublishStatusCompleted, PublishStatusDraft, PublishStatusHalted,
    PublishStatusInProgress, ne_eq] at hb
  unfold effectiveReleaseNotes at hn
  by_cases hm : upload.GetString Mapping = "" <;>
  by_cases hf : upload.GetString ReleaseNotesFile = ""
  · rw [if_pos hf] at hn
    cases hn
    simp [uploadApkCommand, Run.outcome, uploadApkCommand.validate, c.parsed, hargs, c.hasId,
      c.hasKey, c.hasTrack, c.apkOpens, c.keyOpens, hm, hf, hsz2, hb, Errorln, osExit,
      PublishStatusCompleted, PublishStatusDraft, PublishStatusHalted, PublishStatusInProgress]
  · rw [if_neg hf] at hn
    simp [uploadApkCommand, Run.outcome, uploadApkCommand.validate, c.parsed, hargs, c.hasId,
      c.hasKey, c.hasTrack, c.apkOpens, c.keyOpens, hm, hf, hn, hsz2, hb, Errorln, osExit,
      PublishStatusCompleted, PublishStatusDraft, PublishStatusHalted, PublishStatusInProgress]
  · rw [if_pos hf] at hn
    cases hn
    simp [uploadApkCommand, Run.outcome, uploadApkCommand.validate, c.parsed, hargs, c.hasId,
      c.hasKey, c.hasTrack, c.apkOpens, c.keyOpens, hm, c.mappingOpens hm, hf, hsz2, hb,
      Errorln, osExit, PublishStatusCompleted, PublishStatusDraft, PublishStatusHalted,
      PublishStatusInProgress]
  · rw [if_neg hf] at hn
    simp [uploadApkCommand, Run.outcome, uploadApkCommand.validate, c.parsed, hargs, c.hasId,
      c.hasKey, c.hasTrack, c.apkOpens, c.keyOpens, hm, c.mappingOpens hm, hf, hn, hsz2, hb,
      Errorln, osExit, PublishStatusCompleted, PublishStatusDraft, PublishStatusHalted,
      PublishStatusInProgress]

/-- The run of a valid input starts with the creation of the service. -/
theorem run_valid_head (env : Env) (upload : Command) (notes : String)
    (v : Valid env upload notes) :
    (uploadApkCommand env upload).outcome.calls.head? =
      some (Call.NewService (upload.GetString Key)) := by
  have hp := run_path env upload
  generalize (uploadApkCommand env upload).outcome.calls = cs at hp
  generalize (uploadApkCommand env upload).outcome.ending = en at hp
  cases hp with
  | rejected h => exact absurd v (h notes)
  | _ => simp [uploadCalls]

theorem length_replicate_string (n : Nat) (c : Char) :
    (String.mk (List.replicate n c)).length = n := by
  show (List.replicate n c).length = n
  exact List.length_replicate n c

/-- C2: for every configuration that passes the required-field and file checks
and whose effective release notes (the `releasenotes` value, or the content of
the file when `releasenotesfile` is set) are longer than 500 characters, the run
writes the length error, exits with status 1 and issues no call, whatever the
notes contain and whatever the status is. -/
theorem long_release_notes_rejected (env : Env) (upload : Command) (notes : String)
    (c : Checked env upload) (hn : effectiveReleaseNotes env upload = Except.ok notes)
    (hlen : 500 < notes.length) :
    (uploadApkCommand env upload).outcome =
      { calls := [],
        stderr := [ErrLine.line "Release notes cannot exceed 500 characters\n" []],
        ending := Ending.exit 1 } ∧
      (uploadApkCommand env upload).outcome.ending.exitCode ≠ 0 := by
  have hle := length_le_utf8ByteSize notes
  have hr := run_notes_too_long env upload notes c hn (by omega)
  rw [hr]
  simp [Ending.exitCode]

/-- C2 at a release-notes file of 600 characters. -/
theorem long_release_notes_rejected_witness :
    (uploadApkCommand longNotesEnv longNotesUpload).outcome =
      { calls := [],
        stderr := [ErrLine.line "Release notes cannot exceed 500 characters\n" []],
        ending := Ending.exit 1 } ∧
      (uploadApkCommand longNotesEnv longNotesUpload).outcome.ending.exitCode ≠ 0 :=
  long_release_notes_rejected longNotesEnv longNotesUpload longNotes
    { parsed := rfl, hasArgs := by decide, hasId := by decide, hasKey := by decide,
      hasTrack := by decide, apkOpens := rfl, mappingOpens := fun _ => rfl, keyOpens := rfl }
    rfl (by rw [longNotes, length_replicate_string]; omega)

/-- C3, at release notes of 251 accented letters: the notes have 251 characters,
which is within the bound of 500 characters, and 502 bytes, and the run ends with
the length error. -/
theorem accented_notes_rejected :
    accentedNotes.length = 251 ∧ accentedNotes.utf8ByteSize = 502 ∧
      (uploadApkCommand demoEnv accentedUpload).outcome =
        { calls := [],
          stderr := [ErrLine.line "Release notes cannot exceed 500 characters\n" []],
          ending := Ending.exit 1 } := by
  have hsize : accentedNotes.utf8ByteSize = 502 := by
    unfold accentedNotes
    rw [utf8ByteSize_replicate]
    decide
  refine ⟨by rw [accentedNotes, length_replicate_string], hsize, ?_⟩
  exact run_notes_too_long demoEnv accentedUpload accentedNotes
    { parsed := rfl, hasArgs := by decide, hasId := by decide, hasKey := by decide,
      hasTrack := by decide, apkOpens := rfl, mappingOpens := fun _ => rfl, keyOpens := rfl }
    rfl (by omega)


/-- C4: for every configuration that passes the checks before the status check,
the validation passes exactly when the status is one of `completed`, `draft`,
`halted`, `inProgress`, compared as written: with one of the four the validation
returns and the run goes on to create the service; with any other string, the
empty string included, the run writes the status error, exits with status 1 and
issues no call. -/
theorem publish_status_check (env : Env) (upload : Command) (notes : String)
    (c : Checked env upload) (hn : effectiveReleaseNotes env upload = Except.ok notes)
    (hsz : notes.utf8ByteSize ≤ 500) :
    (upload.GetString Status ∈ ["completed", "draft", "halted", "inProgress"] →
      (∃ vars, uploadApkCommand.validate env upload { calls := [], stderr := [] } =
        Step.cont vars { calls := [], stderr := [] }) ∧
      (uploadApkCommand env upload).outcome.calls.head? =
        some (Call.NewService (upload.GetString Key))) ∧
    (upload.GetString Status ∉ ["completed", "draft", "halted", "inProgress"] →
      (uploadApkCommand env upload).outcome =
        { calls := [],
          stderr := [ErrLine.line
            "Publish status not recognized. It needs to one of %s, %s, %s, %s"
            ["draft", "halted", "inProgress", "completed"]],
          ending := Ending.exit 1 } ∧
      (uploadApkCommand env upload).outcome.ending.exitCode ≠ 0) := by
  constructor
  · intro hs
    have v : Valid env upload notes := ⟨c, hn, hsz, hs⟩
    exact ⟨⟨_, validate_ok env upload notes v _⟩, run_valid_head env upload notes v⟩
  · intro hs
    have hr := run_status_unknown env upload notes c hn hsz hs
    rw [hr]
    simp [Ending.exitCode]

/-- C4 at the flags of `demoUpload`, whose status is the default `completed`. -/
theorem publish_status_check_witness :
    (demoUpload.GetString Status ∈ ["completed", "draft", "halted", "inProgress"] →
      (∃ vars, uploadApkCommand.validate demoEnv demoUpload { calls := [], stderr := [] } =
        Step.cont vars { calls := [], stderr := [] }) ∧
      (uploadApkCommand demoEnv demoUpload).outcome.calls.head? =
        some (Call.NewService (demoUpload.GetString Key))) ∧
    (demoUpload.GetString Status ∉ ["completed", "draft", "halted", "inProgress"] →
      (uploadApkCommand demoEnv demoUpload).outcome =
        { calls := [],
          stderr := [ErrLine.line
            "Publish status not recognized. It needs to one of %s, %s, %s, %s"
            ["draft", "halted", "inProgress", "completed"]],
          ending := Ending.exit 1 } ∧
      (uploadApkCommand demoEnv demoUpload).outcome.ending.exitCode ≠ 0) :=
  publish_status_check demoEnv demoUpload "Uploaded with pspublisher"
    { parsed := rfl, hasArgs := by decide, hasId := by decide, hasKey := by decide,
      hasTrack := by decide, apkOpens := rfl, mappingOpens := fun _ => rfl, keyOpens := rfl }
    rfl (by decide)

/-- C8: the effective release notes are the content of the file named by
`releasenotesfile` when that flag is set, whatever `releasenotes` is, and
otherwise the value of `releasenotes`, whose default is
`Uploaded with pspublisher`.  For every configuration that passes the
required-field and file checks: a file that cannot be read ends the run with the
read error and no call; the release notes the validation hands on are the
effective notes; the length check is made on them; and every track update the
run issues carries them as the text of its release notes. -/
theorem effective_release_notes_used (env : Env) (upload : Command)
    (c : Checked env upload) :
    (upload.GetString ReleaseNotesFile ≠ "" →
      effectiveReleaseNotes env upload =
        env.fs.ReadFile (upload.GetString ReleaseNotesFile)) ∧
    (upload.GetString ReleaseNotesFile = "" →
      effectiveReleaseNotes env upload = Except.ok (upload.GetString ReleaseNotes)) ∧
    (∀ e, effectiveReleaseNotes env upload = Except.error e →
      (uploadApkCommand env upload).outcome =
        { calls := [],
          stderr := [ErrLine.line "Cannot read release notes file contents:\n%s" [e]],
          ending := Ending.exit 1 }) ∧
    (∀ notes, effectiveReleaseNotes env upload = Except.ok notes →
      500 < notes.utf8ByteSize →
      (uploadApkCommand env upload).outcome =
        { calls := [],
          stderr := [ErrLine.line "Release notes cannot exceed 500 characters\n" []],
          ending := Ending.exit 1 }) ∧
    (∀ notes, effectiveReleaseNotes env upload = Except.ok notes →
      notes.utf8ByteSize ≤ 500 →
      upload.GetString Status ∈ ["completed", "draft", "halted", "inProgress"] →
      ∃ vars, uploadApkCommand.validate env upload { calls := [], stderr := [] } =
        Step.cont vars { calls := [], stderr := [] } ∧ vars.releaseNotes = notes) ∧
    (∀ notes, effectiveReleaseNotes env upload = Except.ok notes →
      ∀ packageId editId trackName track,
        Call.TracksUpdate packageId editId trackName track ∈
          (uploadApkCommand env upload).outcome.calls →
        ∃ language, track.Releases.map (fun release => release.ReleaseNotes) =
          [[{ Language := language, Text := notes }]]) ∧
    uploadCommand.GetString ReleaseNotes = "Uploaded with pspublisher" ∧
    uploadCommand.GetString ReleaseNotesFile = "" := by
  refine ⟨?_, ?_, ?_, ?_, ?_, ?_, by decide, by decide⟩
  · intro hf
    simp [effectiveReleaseNotes, hf]
  · intro hf
    simp [effectiveReleaseNotes, hf]
  · intro e he
    have hf : upload.GetString ReleaseNotesFile ≠ "" := by
      intro hf
      simp [effectiveReleaseNotes, hf] at he
    have hr : env.fs.ReadFile (upload.GetString ReleaseNotesFile) = Except.error e := by
      simpa [effectiveReleaseNotes, hf] using he
    exact run_notes_unreadable env upload e c hf hr
  · intro notes hn hsz
    exact run_notes_too_long env upload notes c hn hsz
  · intro notes hn hsz hs
    exact ⟨_, validate_ok env upload notes ⟨c, hn, hsz, hs⟩ _, rfl⟩
  · intro notes hn packageId editId trackName track hmem
    have hp := run_path env upload
    generalize (uploadApkCommand env upload).outcome.calls = cs at hp hmem
    generalize (uploadApkCommand env upload).outcome.ending = en at hp
    have key : ∀ notes2, Valid env upload notes2 → notes2 = notes := by
      intro notes2 v
      have h2 := v.hasNotes
      rw [hn] at h2
      cases h2
      rfl
    cases hp with
    | rejected h => simp at hmem
    | noService notes2 v e h1 => simp at hmem
    | noEdit notes2 v e h1 h2 => simp at hmem
    | noListings notes2 v editId2 e h1 h2 h3 => simp at hmem
    | noApk notes2 v editId2 listings e h1 h2 h3 h4 => simp [uploadCalls] at hmem
    | noMapping notes2 v editId2 listings apk e h1 h2 h3 h4 hm h5 =>
      simp [uploadCalls, mappingCalls, hm] at hmem
    | noListing notes2 v editId2 listings apk h1 h2 h3 h4 h5 h6 =>
      by_cases hm : upload.GetString Mapping = "" <;>
        simp [uploadCalls, mappingCalls, hm] at hmem
    | noTrack notes2 v editId2 listings apk listing rest e h1 h2 h3 h4 h5 h6 h7 =>
      have hk := key notes2 v
      by_cases hm : upload.GetString Mapping = "" <;>
        simp [uploadCalls, mappingCalls, hm] at hmem <;>
        exact ⟨listing.Language, by rw [hmem.2.2.2]; simp [publishTrack, hk]⟩
    | noValidate notes2 v editId2 listings apk listing rest tr e h1 h2 h3 h4 h5 h6 h7 h8 =>
      have hk := key notes2 v
      by_cases hm : upload.GetString Mapping = "" <;>
        simp [uploadCalls, mappingCalls, hm] at hmem <;>
        exact ⟨listing.Language, by rw [hmem.2.2.2]; simp [publishTrack, hk]⟩
    | noCommit notes2 v editId2 listings apk listing rest tr e h1 h2 h3 h4 h5 h6 h7 h8 h9 =>
      have hk := key notes2 v
      by_cases hm : upload.GetString Mapping = "" <;>
        simp [uploadCalls, mappingCalls, hm] at hmem <;>
        exact ⟨listing.Language, by rw [hmem.2.2.2]; simp [publishTrack, hk]⟩
    | committed notes2 v editId2 listings apk listing rest tr h1 h2 h3 h4 h5 h6 h7 h8 h9 =>
      have hk := key notes2 v
      by_cases hm : upload.GetString Mapping = "" <;>
        simp [uploadCalls, mappingCalls, hm] at hmem <;>
        exact ⟨listing.Language, by rw [hmem.2.2.2]; simp [publishTrack, hk]⟩

/-- C8 at the flags of `demoUpload`: no release-notes file, the default notes. -/
theorem effective_release_notes_used_witness :
    effectiveReleaseNotes demoEnv demoUpload = Except.ok "Uploaded with pspublisher" ∧
      ∃ vars, uploadApkCommand.validate demoEnv demoUpload { calls := [], stderr := [] } =
        Step.cont vars { calls := [], stderr := [] } ∧
        vars.releaseNotes = "Uploaded with pspublisher" :=
  have h := effective_release_notes_used demoEnv demoUpload
    { parsed := rfl, hasArgs := by decide, hasId := by decide, hasKey := by decide,
      hasTrack := by decide, apkOpens := rfl, mappingOpens := fun _ => rfl, keyOpens := rfl }
  ⟨h.2.1 (by decide), h.2.2.2.2.1 _ rfl (by decide) (by decide)⟩


/-- C7: for every valid configuration in which every remote call succeeds and
the listings response holds at least one listing, the run creates the service
and then issues, in this order, create edit, list listings, upload artifact,
upload mapping (when the mapping flag is set), update track, validate, commit,
and no delete-edit call; the track sent for the named track has one release,
with the version codes `[v]` for the version code `v` the artifact upload
returned, the validated status, and one release note with the first listing's
language and the effective release notes; the process ends by returning from
`main`, exit status 0. -/
theorem successful_run (env : Env) (upload : Command) (notes editId : String)
    (listing : Listing) (rest : List Listing) (apk : ApkData) (track : TrackData)
    (v : Valid env upload notes)
    (h1 : env.service.NewService (upload.GetString Key) = Except.ok ())
    (h2 : env.service.EditsInsert (upload.GetString Id) = Except.ok editId)
    (h3 : env.service.ListingsList (upload.GetString Id) editId =
      Except.ok { Listings := listing :: rest })
    (h4 : env.service.ApksUpload (upload.GetString Id) editId (upload.GetString Apk)
      "application/vnd.android.package-archive" = Except.ok apk)
    (h5 : upload.GetString Mapping ≠ "" →
      env.service.DeobfuscationfilesUpload (upload.GetString Id) editId apk.VersionCode
        "proguard" (upload.GetString Mapping) "application/octet-stream" = Except.ok ())
    (h7 : env.service.TracksUpdate (upload.GetString Id) editId (upload.GetString Track)
      { Track := "",
        Releases := [{ ReleaseNotes := [{ Language := listing.Language, Text := notes }],
                       Status := upload.GetString Status,
                       VersionCodes := [apk.VersionCode] }] } = Except.ok track)
    (h8 : env.service.EditsValidate (upload.GetString Id) editId = Except.ok ())
    (h9 : env.service.EditsCommit (upload.GetString Id) editId = Except.ok ()) :
    (uploadApkCommand env upload).outcome.calls =
      [Call.NewService (upload.GetString Key), Call.EditsInsert (upload.GetString Id),
        Call.ListingsList (upload.GetString Id) editId,
        Call.ApksUpload (upload.GetString Id) editId (upload.GetString Apk)
          "application/vnd.android.package-archive"] ++
      (if upload.GetString Mapping = "" then []
        else [Call.DeobfuscationfilesUpload (upload.GetString Id) editId apk.VersionCode
          "proguard" (upload.GetString Mapping) "application/octet-stream"]) ++
      [Call.TracksUpdate (upload.GetString Id) editId (upload.GetString Track)
        { Track := "",
          Releases := [{ ReleaseNotes := [{ Language := listing.Language, Text := notes }],
                         Status := upload.GetString Status,
                         VersionCodes := [apk.VersionCode] }] },
        Call.EditsValidate (upload.GetString Id) editId,
        Call.EditsCommit (upload.GetString Id) editId] ∧
    (∀ c ∈ (uploadApkCommand env upload).outcome.calls, c.isDelete = false) ∧
    upload.GetString Status ∈ ["completed", "draft", "halted", "inProgress"] ∧
    (uploadApkCommand env upload).outcome.ending = Ending.returned ∧
    (uploadApkCommand env upload).outcome.ending.exitCode = 0 := by
  have hc : (uploadApkCommand env upload).outcome.calls =
      [Call.NewService (upload.GetString Key), Call.EditsInsert (upload.GetString Id),
        Call.ListingsList (upload.GetString Id) editId,
        Call.ApksUpload (upload.GetString Id) editId (upload.GetString Apk)
          "application/vnd.android.package-archive"] ++
      (if upload.GetString Mapping = "" then []
        else [Call.DeobfuscationfilesUpload (upload.GetString Id) editId apk.VersionCode
          "proguard" (upload.GetString Mapping) "application/octet-stream"]) ++
      [Call.TracksUpdate (upload.GetString Id) editId (upload.GetString Track)
        { Track := "",
          Releases := [{ ReleaseNotes := [{ Language := listing.Language, Text := notes }],
                         Status := upload.GetString Status,
                         VersionCodes := [apk.VersionCode] }] },
        Call.EditsValidate (upload.GetString Id) editId,
        Call.EditsCommit (upload.GetString Id) editId] ∧
      (uploadApkCommand env upload).outcome.ending = Ending.returned := by
    rw [run_valid env upload notes v]
    by_cases hm : upload.GetString Mapping = ""
    · simp [Run.outcome, uploadApkCommand.createEdit, newEdit, doCall, h1, h2,
        uploadApkCommand.publish, Edit.getListings, Edit.uploadApk, Edit.uploadMappingFile,
        Edit.updateTrack, Edit.validate, Edit.commit, Edit.delete, validLocals, Errorln,
        osExit, h3, h4, h7, h8, h9, hm]
    · have h5x := h5 hm
      simp [Run.outcome, uploadApkCommand.createEdit, newEdit, doCall, h1, h2,
        uploadApkCommand.publish, Edit.getListings, Edit.uploadApk, Edit.uploadMappingFile,
        Edit.updateTrack, Edit.validate, Edit.commit, Edit.delete, validLocals, Errorln,
        osExit, h3, h4, h7, h8, h9, hm, h5x]
  refine ⟨hc.1, ?_, v.hasStatus, hc.2, ?_⟩
  · rw [hc.1]
    by_cases hm : upload.GetString Mapping = "" <;> simp [hm, Call.isDelete]
  · rw [hc.2]
    rfl

/-- C7 at `demoEnv`: version code 42, checksum `abc123`, one listing in `en-US`. -/
theorem successful_run_witness :
    (uploadApkCommand demoEnv demoUpload).outcome.calls =
      [Call.NewService "key.json", Call.EditsInsert "com.example.app",
        Call.ListingsList "com.example.app" "edit-1",
        Call.ApksUpload "com.example.app" "edit-1" "app.apk"
          "application/vnd.android.package-archive",
        Call.TracksUpdate "com.example.app" "edit-1" "beta"
          { Track := "",
            Releases := [{ ReleaseNotes := [{ Language := "en-US",
                                              Text := "Uploaded with pspublisher" }],
                           Status := "completed", VersionCodes := [42] }] },
        Call.EditsValidate "com.example.app" "edit-1",
        Call.EditsCommit "com.example.app" "edit-1"] ∧
      (uploadApkCommand demoEnv demoUpload).outcome.ending.exitCode = 0 :=
  have h := successful_run demoEnv demoUpload "Uploaded with pspublisher" "edit-1"
    { Language := "en-US" } [] { Binary := { Sha1 := "abc123" }, VersionCode := 42 }
    { Track := "beta",
      Releases := [{ ReleaseNotes := [{ Language := "en-US",
                                        Text := "Uploaded with pspublisher" }],
                     Status := "completed", VersionCodes := [42] }] }
    { checked :=
        { parsed := rfl, hasArgs := by decide, hasId := by decide, hasKey := by decide,
          hasTrack := by decide, apkOpens := rfl, mappingOpens := fun _ => rfl,
          keyOpens := rfl },
      hasNotes := rfl, notesSize := by decide, hasStatus := by decide }
    rfl rfl rfl rfl (fun _ => rfl) rfl rfl rfl
  ⟨h.1, h.2.2.2.2⟩

/-- C10: for every valid configuration in which create-edit, list-listings, the
artifact upload and the mapping upload (when the mapping flag is set) succeed and
the listings response holds no listing, the run panics on `Listings[0]` after
the artifact upload: it has issued the calls up to the uploads and no
delete-edit, update-track, validate or commit call, and the process ends with a
non-zero status. -/
theorem empty_listings_panic (env : Env) (upload : Command) (notes editId : String)
    (apk : ApkData) (v : Valid env upload notes)
    (h1 : env.service.NewService (upload.GetString Key) = Except.ok ())
    (h2 : env.service.EditsInsert (upload.GetString Id) = Except.ok editId)
    (h3 : env.service.ListingsList (upload.GetString Id) editId =
      Except.ok { Listings := [] })
    (h4 : env.service.ApksUpload (upload.GetString Id) editId (upload.GetString Apk)
      "application/vnd.android.package-archive" = Except.ok apk)
    (h5 : upload.GetString Mapping ≠ "" →
      env.service.DeobfuscationfilesUpload (upload.GetString Id) editId apk.VersionCode
        "proguard" (upload.GetString Mapping) "application/octet-stream" = Except.ok ()) :
    (uploadApkCommand env upload).outcome.calls =
      [Call.NewService (upload.GetString Key), Call.EditsInsert (upload.GetString Id),
        Call.ListingsList (upload.GetString Id) editId,
        Call.ApksUpload (upload.GetString Id) editId (upload.GetString Apk)
          "application/vnd.android.package-archive"] ++
      (if upload.GetString Mapping = "" then []
        else [Call.DeobfuscationfilesUpload (upload.GetString Id) editId apk.VersionCode
          "proguard" (upload.GetString Mapping) "application/octet-stream"]) ∧
    (uploadApkCommand env upload).outcome.ending =
      Ending.panicked "runtime error: index out of range [0] with length 0" ∧
    (uploadApkCommand env upload).outcome.ending.exitCode ≠ 0 ∧
    (∀ c ∈ (uploadApkCommand env upload).outcome.calls, c.isDelete = false) ∧
    (∀ packageId id trackName track, Call.TracksUpdate packageId id trackName track ∉
      (uploadApkCommand env upload).outcome.calls) ∧
    (∀ packageId id, Call.EditsValidate packageId id ∉
      (uploadApkCommand env upload).outcome.calls) ∧
    (∀ packageId id, Call.EditsCommit packageId id ∉
      (uploadApkCommand env upload).outcome.calls) := by
  have hc : (uploadApkCommand env upload).outcome.calls =
      [Call.NewService (upload.GetString Key), Call.EditsInsert (upload.GetString Id),
        Call.ListingsList (upload.GetString Id) editId,
        Call.ApksUpload (upload.GetString Id) editId (upload.GetString Apk)
          "application/vnd.android.package-archive"] ++
      (if upload.GetString Mapping = "" then []
        else [Call.DeobfuscationfilesUpload (upload.GetString Id) editId apk.VersionCode
          "proguard" (upload.GetString Mapping) "application/octet-stream"]) ∧
      (uploadApkCommand env upload).outcome.ending =
        Ending.panicked "runtime error: index out of range [0] with length 0" := by
    rw [run_valid env upload notes v]
    by_cases hm : upload.GetString Mapping = ""
    · simp [Run.outcome, uploadApkCommand.createEdit, newEdit, doCall, h1, h2,
        uploadApkCommand.publish, Edit.getListings, Edit.uploadApk, Edit.uploadMappingFile,
        validLocals, goPanic, Errorln, osExit, h3, h4, hm]
    · have h5x := h5 hm
      simp [Run.outcome, uploadApkCommand.createEdit, newEdit, doCall, h1, h2,
        uploadApkCommand.publish, Edit.getListings, Edit.uploadApk, Edit.uploadMappingFile,
        validLocals, goPanic, Errorln, osExit, h3, h4, hm, h5x]
  rw [hc.1, hc.2]
  refine ⟨rfl, rfl, by simp [Ending.exitCode], ?_, ?_, ?_, ?_⟩ <;>
    by_cases hm : upload.GetString Mapping = "" <;> simp [hm, Call.isDelete]

/-- C10 at `noListingEnv`: the listings response is empty. -/
theorem empty_listings_panic_witness :
    (uploadApkCommand noListingEnv demoUpload).outcome.calls =
      [Call.NewService "key.json", Call.EditsInsert "com.example.app",
        Call.ListingsList "com.example.app" "edit-1",
        Call.ApksUpload "com.example.app" "edit-1" "app.apk"
          "application/vnd.android.package-archive"] ∧
      (uploadApkCommand noListingEnv demoUpload).outcome.ending =
        Ending.panicked "runtime error: index out of range [0] with length 0" :=
  have h := empty_listings_panic noListingEnv demoUpload "Uploaded with pspublisher" "edit-1"
    { Binary := { Sha1 := "abc123" }, VersionCode := 42 }
    { checked :=
        { parsed := rfl, hasArgs := by decide, hasId := by decide, hasKey := by decide,
          hasTrack := by decide, apkOpens := rfl, mappingOpens := fun _ => rfl,
          keyOpens := rfl },
      hasNotes := rfl, notesSize := by decide, hasStatus := by decide }
    rfl rfl rfl rfl (fun _ => rfl)
  ⟨h.1, h.2.1⟩


/-- C5: for every run in which create-edit succeeds, with the edit `editId`, and
the call `c` of a later step (fetch listings, upload artifact, upload mapping,
update track, validate or commit) is issued and answered with an error: the
failed call is followed by one delete-edit call for that edit and by nothing
else, no call before it is a delete-edit call or was answered with an error, and
the process exits with status 1, whatever the delete call returns. -/
theorem failed_step_rolls_back (env : Env) (upload : Command) (editId : String) (c : Call)
    (hcreate : Call.EditsInsert (upload.GetString Id) ∈
      (uploadApkCommand env upload).outcome.calls)
    (hok : env.service.EditsInsert (upload.GetString Id) = Except.ok editId)
    (hc : c ∈ (uploadApkCommand env upload).outcome.calls)
    (hstep : c.isStep = true) (hfail : env.service.failed c = true) :
    (∃ before, (uploadApkCommand env upload).outcome.calls =
        before ++ [c, Call.EditsDelete (upload.GetString Id) editId] ∧
      ∀ d ∈ before, d.isDelete = false ∧ env.service.failed d = false) ∧
    (uploadApkCommand env upload).outcome.calls.filter Call.isDelete =
      [Call.EditsDelete (upload.GetString Id) editId] ∧
    (uploadApkCommand env upload).outcome.ending = Ending.exit 1 ∧
    (uploadApkCommand env upload).outcome.ending.exitCode ≠ 0 := by
  have hp := run_path env upload
  generalize (uploadApkCommand env upload).outcome.calls = cs at hp hcreate hc
  generalize (uploadApkCommand env upload).outcome.ending = en at hp
  cases hp with
  | rejected h => simp at hc
  | noService notes v e h1 => simp at hcreate
  | noEdit notes v e h1 h2 =>
    rw [h2] at hok
    cases hok
  | noListings notes v editId2 e h1 h2 h3 =>
    rw [h2] at hok
    cases hok
    simp at hc
    rcases hc with rfl | rfl | rfl | rfl
    · simp [Call.isStep] at hstep
    · simp [Call.isStep] at hstep
    · refine ⟨⟨[Call.NewService (upload.GetString Key),
        Call.EditsInsert (upload.GetString Id)], by simp, ?_⟩, ?_, rfl, by simp [Ending.exitCode]⟩
      · simp [Call.isDelete, Service.failed, h1, h2, Except.toBool]
      · simp [List.filter, Call.isDelete]
    · simp [Call.isStep] at hstep
  | noApk notes v editId2 listings e h1 h2 h3 h4 =>
    rw [h2] at hok
    cases hok
    · simp [uploadCalls, mappingCalls, h1] at hc
      rcases hc with rfl | rfl | rfl | rfl | rfl | rfl | rfl | rfl | rfl
      all_goals first
        | (exfalso; simp [Call.isStep] at hstep; done)
        | (exfalso; simp [Service.failed, Except.toBool, h1, h2, h3] at hfail; done)
        | (refine ⟨⟨[Call.NewService (upload.GetString Key), Call.EditsInsert (upload.GetString Id), Call.ListingsList (upload.GetString Id) editId], by simp [uploadCalls, mappingCalls, h1], ?_⟩,
            by simp [uploadCalls, mappingCalls, h1, List.filter, Call.isDelete], rfl,
            by simp [Ending.exitCode]⟩
           intro d hd
           simp [uploadCalls, mappingCalls, h1] at hd
           rcases hd with rfl | rfl | rfl | rfl | rfl | rfl | rfl | rfl | rfl <;>
             simp [Call.isDelete, Service.failed, Except.toBool, h1, h2, h3])
  | noMapping notes v editId2 listings apk e h1 h2 h3 h4 hm2 h5 =>
    rw [h2] at hok
    cases hok
    · simp [uploadCalls, mappingCalls, hm2] at hc
      rcases hc with rfl | rfl | rfl | rfl | rfl | rfl | rfl | rfl | rfl
      all_goals first
        | (exfalso; simp [Call.isStep] at hstep; done)
        | (exfalso; simp [Service.failed, Except.toBool, h1, h2, h3, h4] at hfail; done)
        | (refine ⟨⟨uploadCalls upload editId, by simp [uploadCalls, mappingCalls, hm2], ?_⟩,
            by simp [uploadCalls, mappingCalls, hm2, List.filter, Call.isDelete], rfl,
            by simp [Ending.exitCode]⟩
           intro d hd
           simp [uploadCalls, mappingCalls, hm2] at hd
           rcases hd with rfl | rfl | rfl | rfl | rfl | rfl | rfl | rfl | rfl <;>
             simp [Call.isDelete, Service.failed, Except.toBool, h1, h2, h3, h4])
  | noListing notes v editId2 listings apk h1 h2 h3 h4 h5 h6 =>
    rw [h2] at hok
    cases hok
    by_cases hm : upload.GetString Mapping = ""
    · simp [uploadCalls, mappingCalls, hm] at hc
      rcases hc with rfl | rfl | rfl | rfl | rfl | rfl | rfl | rfl | rfl
      all_goals first
        | (exfalso; simp [Call.isStep] at hstep; done)
        | (exfalso; simp [Service.failed, Except.toBool, h1, h2, h3, h4] at hfail; done)
    · have h5x := h5 hm
      simp [uploadCalls, mappingCalls, hm] at hc
      rcases hc with rfl | rfl | rfl | rfl | rfl | rfl | rfl | rfl | rfl
      all_goals first
        | (exfalso; simp [Call.isStep] at hstep; done)
        | (exfalso; simp [Service.failed, Except.toBool, h1, h2, h3, h4, h5x] at hfail; done)
  | noTrack notes v editId2 listings apk listing rest e h1 h2 h3 h4 h5 h6 h7 =>
    rw [h2] at hok
    cases hok
    by_cases hm : upload.GetString Mapping = ""
    · simp [uploadCalls, mappingCalls, hm] at hc
      rcases hc with rfl | rfl | rfl | rfl | rfl | rfl | rfl | rfl | rfl
      all_goals first
        | (exfalso; simp [Call.isStep] at hstep; done)
        | (exfalso; simp [Service.failed, Except.toBool, h1, h2, h3, h4] at hfail; done)
        | (refine ⟨⟨uploadCalls upload editId ++ mappingCalls upload editId apk, by simp [uploadCalls, mappingCalls, hm], ?_⟩,
            by simp [uploadCalls, mappingCalls, hm, List.filter, Call.isDelete], rfl,
            by simp [Ending.exitCode]⟩
           intro d hd
           simp [uploadCalls, mappingCalls, hm] at hd
           rcases hd with rfl | rfl | rfl | rfl | rfl | rfl | rfl | rfl | rfl <;>
             simp [Call.isDelete, Service.failed, Except.toBool, h1, h2, h3, h4])
    · have h5x := h5 hm
      simp [uploadCalls, mappingCalls, hm] at hc
      rcases hc with rfl | rfl | rfl | rfl | rfl | rfl | rfl | rfl | rfl
      all_goals first
        | (exfalso; simp [Call.isStep] at hstep; done)
        | (exfalso; simp [Service.failed, Except.toBool, h1, h2, h3, h4, h5x] at hfail; done)
        | (refine ⟨⟨uploadCalls upload editId ++ mappingCalls upload editId apk, by simp [uploadCalls, mappingCalls, hm], ?_⟩,
            by simp [uploadCalls, mappingCalls, hm, List.filter, Call.isDelete], rfl,
            by simp [Ending.exitCode]⟩
           intro d hd
           simp [uploadCalls, mappingCalls, hm] at hd
           rcases hd with rfl | rfl | rfl | rfl | rfl | rfl | rfl | rfl | rfl <;>
             simp [Call.isDelete, Service.failed, Except.toBool, h1, h2, h3, h4, h5x])
  | noValidate notes v editId2 listings apk listing rest tr e h1 h2 h3 h4 h5 h6 h7 h8 =>
    rw [h2] at hok
    cases hok
    by_cases hm : upload.GetString Mapping = ""
    · simp [uploadCalls, mappingCalls, hm] at hc
      rcases hc with rfl | rfl | rfl | rfl | rfl | rfl | rfl | rfl | rfl
      all_goals first
        | (exfalso; simp [Call.isStep] at hstep; done)
        | (exfalso; simp [Service.failed, Except.toBool, h1, h2, h3, h4, h7] at hfail; done)
        | (refine ⟨⟨uploadCalls upload editId ++ mappingCalls upload editId apk ++ [Call.TracksUpdate (upload.GetString Id) editId (upload.GetString Track)
              (publishTrack upload notes listing apk)], by simp [uploadCalls, mappingCalls, hm], ?_⟩,
            by simp [uploadCalls, mappingCalls, hm, List.filter, Call.isDelete], rfl,
            by simp [Ending.exitCode]⟩
           intro d hd
           simp [uploadCalls, mappingCalls, hm] at hd
           rcases hd with rfl | rfl | rfl | rfl | rfl | rfl | rfl | rfl | rfl <;>
             simp [Call.isDelete, Service.failed, Except.toBool, h1, h2, h3, h4, h7])
    · have h5x := h5 hm
      simp [uploadCalls, mappingCalls, hm] at hc
      rcases hc with rfl | rfl | rfl | rfl | rfl | rfl | rfl | rfl | rfl
      all_goals first
        | (exfalso; simp [Call.isStep] at hstep; done)
        | (exfalso; simp [Service.failed, Except.toBool, h1, h2, h3, h4, h7, h5x] at hfail; done)
        | (refine ⟨⟨uploadCalls upload editId ++ mappingCalls upload editId apk ++ [Call.TracksUpdate (upload.GetString Id) editId (upload.GetString Track)
              (publishTrack upload notes listing apk)], by simp [uploadCalls, mappingCalls, hm], ?_⟩,
            by simp [uploadCalls, mappingCalls, hm, List.filter, Call.isDelete], rfl,
            by simp [Ending.exitCode]⟩
           intro d hd
           simp [uploadCalls, mappingCalls, hm] at hd
           rcases hd with rfl | rfl | rfl | rfl | rfl | rfl | rfl | rfl | rfl <;>
             simp [Call.isDelete, Service.failed, Except.toBool, h1, h2, h3, h4, h7, h5x])
  | noCommit notes v editId2 listings apk listing rest tr e h1 h2 h3 h4 h5 h6 h7 h8 h9 =>
    rw [h2] at hok
    cases hok
    by_cases hm : upload.GetString Mapping = ""
    · simp [uploadCalls, mappingCalls, hm] at hc
      rcases hc with rfl | rfl | rfl | rfl | rfl | rfl | rfl | rfl | rfl
      all_goals first
        | (exfalso; simp [Call.isStep] at hstep; done)
        | (exfalso; simp [Service.failed, Except.toBool, h1, h2, h3, h4, h7, h8] at hfail; done)
        | (refine ⟨⟨uploadCalls upload editId ++ mappingCalls upload editId apk ++ [Call.TracksUpdate (upload.GetString Id) editId (upload.GetString Track)
              (publishTrack upload notes listing apk), Call.EditsValidate (upload.GetString Id) editId], by simp [uploadCalls, mappingCalls, hm], ?_⟩,
            by simp [uploadCalls, mappingCalls, hm, List.filter, Call.isDelete], rfl,
            by simp [Ending.exitCode]⟩
           intro d hd
           simp [uploadCalls, mappingCalls, hm] at hd
           rcases hd with rfl | rfl | rfl | rfl | rfl | rfl | rfl | rfl | rfl <;>
             simp [Call.isDelete, Service.failed, Except.toBool, h1, h2, h3, h4, h7, h8])
    · have h5x := h5 hm
      simp [uploadCalls, mappingCalls, hm] at hc
      rcases hc with rfl | rfl | rfl | rfl | rfl | rfl | rfl | rfl | rfl
      all_goals first
        | (exfalso; simp [Call.isStep] at hstep; done)
        | (exfalso; simp [Service.failed, Except.toBool, h1, h2, h3, h4, h7, h8, h5x] at hfail; done)
        | (refine ⟨⟨uploadCalls upload editId ++ mappingCalls upload editId apk ++ [Call.TracksUpdate (upload.GetString Id) editId (upload.GetString Track)
              (publishTrack upload notes listing apk), Call.EditsValidate (upload.GetString Id) editId], by simp [uploadCalls, mappingCalls, hm], ?_⟩,
            by simp [uploadCalls, mappingCalls, hm, List.filter, Call.isDelete], rfl,
            by simp [Ending.exitCode]⟩
           intro d hd
           simp [uploadCalls, mappingCalls, hm] at hd
           rcases hd with rfl | rfl | rfl | rfl | rfl | rfl | rfl | rfl | rfl <;>
             simp [Call.isDelete, Service.failed, Except.toBool, h1, h2, h3, h4, h7, h8, h5x])
  | committed notes v editId2 listings apk listing rest tr h1 h2 h3 h4 h5 h6 h7 h8 h9 =>
    rw [h2] at hok
    cases hok
    by_cases hm : upload.GetString Mapping = ""
    · simp [uploadCalls, mappingCalls, hm] at hc
      rcases hc with rfl | rfl | rfl | rfl | rfl | rfl | rfl | rfl | rfl
      all_goals first
        | (exfalso; simp [Call.isStep] at hstep; done)
        | (exfalso; simp [Service.failed, Except.toBool, h1, h2, h3, h4, h7, h8, h9] at hfail; done)
    · have h5x := h5 hm
      simp [uploadCalls, mappingCalls, hm] at hc
      rcases hc with rfl | rfl | rfl | rfl | rfl | rfl | rfl | rfl | rfl
      all_goals first
        | (exfalso; simp [Call.isStep] at hstep; done)
        | (exfalso; simp [Service.failed, Except.toBool, h1, h2, h3, h4, h7, h8, h9, h5x] at hfail; done)

/-- C5 at `failedUploadEnv`: the artifact upload fails. -/
theorem failed_step_rolls_back_witness :
    (uploadApkCommand failedUploadEnv demoUpload).outcome.calls.filter Call.isDelete =
      [Call.EditsDelete "com.example.app" "edit-1"] ∧
    (uploadApkCommand failedUploadEnv demoUpload).outcome.ending = Ending.exit 1 :=
  have h := failed_step_rolls_back failedUploadEnv demoUpload "edit-1"
    (Call.ApksUpload "com.example.app" "edit-1" "app.apk"
      "application/vnd.android.package-archive")
    (by decide) rfl (by decide) rfl rfl
  ⟨h.2.1, h.2.2.1⟩

/-- C6: in every run with the mapping flag unset no mapping upload is called,
whatever the other steps return; in every run with the mapping flag set in which
the artifact upload is called and succeeds, the mapping upload is called exactly
once, for the same edit, with the version code the artifact upload returned, the
file type `proguard` and the mapping file. -/
theorem mapping_upload_only_when_supplied (env : Env) (upload : Command) :
    (upload.GetString Mapping = "" →
      ∀ c ∈ (uploadApkCommand env upload).outcome.calls, c.isMappingUpload = false) ∧
    (upload.GetString Mapping ≠ "" →
      ∀ packageId editId media contentType apk,
        Call.ApksUpload packageId editId media contentType ∈
          (uploadApkCommand env upload).outcome.calls →
        env.service.ApksUpload packageId editId media contentType = Except.ok apk →
        (uploadApkCommand env upload).outcome.calls.filter Call.isMappingUpload =
          [Call.DeobfuscationfilesUpload packageId editId apk.VersionCode "proguard"
            (upload.GetString Mapping) "application/octet-stream"]) := by
  have hp := run_path env upload
  generalize (uploadApkCommand env upload).outcome.calls = cs at hp
  generalize (uploadApkCommand env upload).outcome.ending = en at hp
  constructor
  · intro hm
    have hnone : cs.filter Call.isMappingUpload = [] := by
      cases hp <;> simp [uploadCalls, mappingCalls, hm, List.filter, Call.isMappingUpload]
    intro c hc
    have hall := List.filter_eq_nil_iff.mp hnone c hc
    simpa using hall
  · intro hm packageId editId media contentType apk hmem hok
    cases hp with
    | rejected h => simp at hmem
    | noService notes2 v e h1 => simp at hmem
    | noEdit notes2 v e h1 h2 => simp at hmem
    | noListings notes2 v editId2 e h1 h2 h3 => simp at hmem
    | noApk notes2 v editId2 listings e h1 h2 h3 h4 =>
      simp [uploadCalls] at hmem
      obtain ⟨rfl, rfl, rfl, rfl⟩ := hmem
      rw [h4] at hok
      cases hok
    | noMapping notes2 v editId2 listings apk2 e h1 h2 h3 h4 hm2 h5 =>
      simp [uploadCalls, mappingCalls, hm] at hmem
      obtain ⟨rfl, rfl, rfl, rfl⟩ := hmem
      rw [h4] at hok
      cases hok
      simp [uploadCalls, mappingCalls, hm, List.filter, Call.isMappingUpload]
    | noListing notes2 v editId2 listings apk2 h1 h2 h3 h4 h5 h6 =>
      simp [uploadCalls, mappingCalls, hm] at hmem
      obtain ⟨rfl, rfl, rfl, rfl⟩ := hmem
      rw [h4] at hok
      cases hok
      simp [uploadCalls, mappingCalls, hm, List.filter, Call.isMappingUpload]
    | noTrack notes2 v editId2 listings apk2 listing rest e h1 h2 h3 h4 h5 h6 h7 =>
      simp [uploadCalls, mappingCalls, hm] at hmem
      obtain ⟨rfl, rfl, rfl, rfl⟩ := hmem
      rw [h4] at hok
      cases hok
      simp [uploadCalls, mappingCalls, hm, List.filter, Call.isMappingUpload]
    | noValidate notes2 v editId2 listings apk2 listing rest tr e h1 h2 h3 h4 h5 h6 h7 h8 =>
      simp [uploadCalls, mappingCalls, hm] at hmem
      obtain ⟨rfl, rfl, rfl, rfl⟩ := hmem
      rw [h4] at hok
      cases hok
      simp [uploadCalls, mappingCalls, hm, List.filter, Call.isMappingUpload]
    | noCommit notes2 v editId2 listings apk2 listing rest tr e h1 h2 h3 h4 h5 h6 h7 h8 h9 =>
      simp [uploadCalls, mappingCalls, hm] at hmem
      obtain ⟨rfl, rfl, rfl, rfl⟩ := hmem
      rw [h4] at hok
      cases hok
      simp [uploadCalls, mappingCalls, hm, List.filter, Call.isMappingUpload]
    | committed notes2 v editId2 listings apk2 listing rest tr h1 h2 h3 h4 h5 h6 h7 h8 h9 =>
      simp [uploadCalls, mappingCalls, hm] at hmem
      obtain ⟨rfl, rfl, rfl, rfl⟩ := hmem
      rw [h4] at hok
      cases hok
      simp [uploadCalls, mappingCalls, hm, List.filter, Call.isMappingUpload]

/-- C6 at `demoEnv`, with the flag `-mapping mapping.txt` and without it. -/
theorem mapping_upload_only_when_supplied_witness :
    (uploadApkCommand demoEnv mappingUpload).outcome.calls.filter Call.isMappingUpload =
      [Call.DeobfuscationfilesUpload "com.example.app" "edit-1" 42 "proguard" "mapping.txt"
        "application/octet-stream"] ∧
    (∀ c ∈ (uploadApkCommand demoEnv demoUpload).outcome.calls, c.isMappingUpload = false) :=
  ⟨(mapping_upload_only_when_supplied demoEnv mappingUpload).2 (by decide) "com.example.app"
      "edit-1" "app.apk" "application/vnd.android.package-archive"
      { Binary := { Sha1 := "abc123" }, VersionCode := 42 } (by decide) rfl,
    (mapping_upload_only_when_supplied demoEnv demoUpload).1 (by decide)⟩


theorem found_iff (l : List String) (v : String) : arrayFlags.found l v = true ↔ v ∈ l := by
  induction l with
  | nil => simp [arrayFlags.found]
  | cons b rest ih =>
    by_cases hb : b = v
    · simp [arrayFlags.found, hb]
    · have hv : ¬ v = b := fun h => hb h.symm
      simp [arrayFlags.found, hb, hv, ih]

theorem set_of_mem (l : List String) (v : String) (h : v ∈ l) : (arrayFlags.Set l v).1 = l := by
  simp [arrayFlags.Set, (found_iff l v).mpr h]

theorem set_of_not_mem (l : List String) (v : String) (h : v ∉ l) :
    (arrayFlags.Set l v).1 = l ++ [v] := by
  have hf : arrayFlags.found l v = false := by
    cases hx : arrayFlags.found l v with
    | false => rfl
    | true => exact absurd ((found_iff l v).mp hx) h
  simp [arrayFlags.Set, hf]

theorem setAll_append (vs : List String) (v : String) :
    setAll (vs ++ [v]) = (arrayFlags.Set (setAll vs) v).1 := by
  simp [setAll, List.foldl_append]

theorem mem_setAll (vs : List String) : ∀ x : String, x ∈ setAll vs ↔ x ∈ vs := by
  induction vs using List.reverseRecOn with
  | nil => simp [setAll]
  | append_singleton vs v ih =>
    intro x
    rw [setAll_append]
    by_cases hv : v ∈ setAll vs
    · rw [set_of_mem _ _ hv]
      have hv2 : v ∈ vs := (ih v).mp hv
      constructor
      · intro hx
        exact List.mem_append_left _ ((ih x).mp hx)
      · intro hx
        rcases List.mem_append.mp hx with h | h
        · exact (ih x).mpr h
        · have hxv : x = v := by simpa using h
          rw [hxv]
          exact hv
    · rw [set_of_not_mem _ _ hv]
      simp [List.mem_append, ih x]

theorem nodup_setAll (vs : List String) : (setAll vs).Nodup := by
  induction vs using List.reverseRecOn with
  | nil => simp [setAll]
  | append_singleton vs v ih =>
    rw [setAll_append]
    by_cases hv : v ∈ setAll vs
    · rw [set_of_mem _ _ hv]
      exact ih
    · rw [set_of_not_mem _ _ hv]
      refine List.Nodup.append ih (List.nodup_singleton v) ?_
      intro a ha hav
      have : a = v := by simpa using hav
      exact hv (this ▸ ha)

theorem indexOf_setAll (vs : List String) : ∀ x y : String, x ∈ vs → y ∈ vs →
    ((setAll vs).indexOf x < (setAll vs).indexOf y ↔ vs.indexOf x < vs.indexOf y) := by
  induction vs using List.reverseRecOn with
  | nil =>
    intro x y hx
    simp at hx
  | append_singleton vs v ih =>
    have key : ∀ z : String, z ∈ vs ++ [v] →
        (z ∈ vs ∧ (setAll (vs ++ [v])).indexOf z = (setAll vs).indexOf z ∧
          (vs ++ [v]).indexOf z = vs.indexOf z) ∨
        (z ∉ vs ∧ (setAll (vs ++ [v])).indexOf z = (setAll vs).length ∧
          (vs ++ [v]).indexOf z = vs.length) := by
      intro z hz
      by_cases hzv : z ∈ vs
      · left
        refine ⟨hzv, ?_, List.indexOf_append_of_mem hzv⟩
        rw [setAll_append]
        by_cases hv : v ∈ setAll vs
        · rw [set_of_mem _ _ hv]
        · rw [set_of_not_mem _ _ hv]
          exact List.indexOf_append_of_mem ((mem_setAll vs z).mpr hzv)
      · right
        have hz2 : z = v := by
          rcases List.mem_append.mp hz with h | h
          · exact absurd h hzv
          · simpa using h
        subst hz2
        have hzs : z ∉ setAll vs := fun h => hzv ((mem_setAll vs z).mp h)
        refine ⟨hzv, ?_, ?_⟩
        · rw [setAll_append, set_of_not_mem _ _ hzs, List.indexOf_append_of_not_mem hzs]
          simp
        · rw [List.indexOf_append_of_not_mem hzv]
          simp
    intro x y hx hy
    rcases key x hx with ⟨hxm, hx1, hx2⟩ | ⟨hxm, hx1, hx2⟩ <;>
    rcases key y hy with ⟨hym, hy1, hy2⟩ | ⟨hym, hy1, hy2⟩
    · rw [hx1, hx2, hy1, hy2]
      exact ih x y hxm hym
    · rw [hx1, hx2, hy1, hy2]
      have h1 : (setAll vs).indexOf x < (setAll vs).length :=
        List.indexOf_lt_length.mpr ((mem_setAll vs x).mpr hxm)
      have h2 : vs.indexOf x < vs.length := List.indexOf_lt_length.mpr hxm
      exact ⟨fun _ => h2, fun _ => h1⟩
    · rw [hx1, hx2, hy1, hy2]
      have h1 : (setAll vs).indexOf y < (setAll vs).length :=
        List.indexOf_lt_length.mpr ((mem_setAll vs y).mpr hym)
      have h2 : vs.indexOf y < vs.length := List.indexOf_lt_length.mpr hym
      constructor
      · intro h
        omega
      · intro h
        omega
    · rw [hx1, hx2, hy1, hy2]
      simp

/-- C9: `Set` adds no duplicate.  For every list and value it returns no error;
a value that occurs in the list leaves the list unchanged, any other value is
appended at the end.  A list built from the empty list by any sequence of `Set`
calls has no repeated element, holds exactly the values that were set, and holds
them in the order of their first occurrences; setting a value twice is setting
it once. -/
theorem set_adds_no_duplicates :
    (∀ (l : arrayFlags) (v : String), (arrayFlags.Set l v).2 = none) ∧
    (∀ (l : arrayFlags) (v : String), v ∈ l → (arrayFlags.Set l v).1 = l) ∧
    (∀ (l : arrayFlags) (v : String), v ∉ l → (arrayFlags.Set l v).1 = l ++ [v]) ∧
    (∀ values : List String, (setAll values).Nodup) ∧
    (∀ (values : List String) (x : String), x ∈ setAll values ↔ x ∈ values) ∧
    (∀ (values : List String) (x y : String), x ∈ values → y ∈ values →
      ((setAll values).indexOf x < (setAll values).indexOf y ↔
        values.indexOf x < values.indexOf y)) ∧
    (∀ (l : arrayFlags) (v : String),
      (arrayFlags.Set (arrayFlags.Set l v).1 v).1 = (arrayFlags.Set l v).1) := by
  refine ⟨?_, set_of_mem, set_of_not_mem, nodup_setAll, mem_setAll, indexOf_setAll, ?_⟩
  · intro l v
    unfold arrayFlags.Set
    split <;> rfl
  · intro l v
    by_cases hv : v ∈ l
    · rw [set_of_mem l v hv, set_of_mem l v hv]
    · rw [set_of_not_mem l v hv]
      exact set_of_mem _ _ (by simp)

/-- C9 at the list `["a", "b"]`: setting `"a"` changes nothing, setting `"c"`
appends it. -/
theorem set_adds_no_duplicates_witness :
    (arrayFlags.Set ["a", "b"] "a").1 = ["a", "b"] ∧
    (arrayFlags.Set ["a", "b"] "c").1 = ["a", "b"] ++ ["c"] ∧
    ((setAll ["b", "a", "b", "c", "a"]).indexOf "b" <
        (setAll ["b", "a", "b", "c", "a"]).indexOf "c" ↔
      ["b", "a", "b", "c", "a"].indexOf "b" < ["b", "a", "b", "c", "a"].indexOf "c") :=
  ⟨set_adds_no_duplicates.2.1 ["a", "b"] "a" (by decide),
    set_adds_no_duplicates.2.2.1 ["a", "b"] "c" (by decide),
    set_adds_no_duplicates.2.2.2.2.2.1 ["b", "a", "b", "c", "a"] "b" "c" (by decide)
      (by decide)⟩

end PsPublisher
